import Mathlib

/-!
# Key and script server (`src/server.js`)

A shallow embedding of the Express handlers of `src/server.js`.  The two global
stores `scripts` and `keys` are plain JavaScript objects, so a property read
`obj[name]` first looks at the object's own properties and then at
`Object.prototype`; both layers are modelled.  `Date.now()` and the result of
`uuidv4()` are passed to the handlers as arguments.  Request fields are
JavaScript strings, `none` standing for `undefined` (an absent field).
-/

namespace Server

/-! ## JavaScript objects used as string-keyed maps -/

/-- Property names every plain object inherits from `Object.prototype`. -/
def objectPrototypeNames : List String :=
  ["constructor", "__defineGetter__", "__defineSetter__", "hasOwnProperty",
   "__lookupGetter__", "__lookupSetter__", "isPrototypeOf", "propertyIsEnumerable",
   "toString", "valueOf", "__proto__", "toLocaleString"]

/-- Result of a property read `obj[name]` on one of the stores: `undefined`, a
member of `Object.prototype` (a truthy value that has none of the record
fields), or a record stored under an own property. -/
inductive Ref (α : Type) where
  | undefined
  | inherited
  | own (a : α)
  deriving DecidableEq, Repr

/-- Own properties of a store, in insertion order. -/
def ownGet {α : Type} : List (String × α) → String → Option α
  | [], _ => none
  | (k, v) :: rest, name => if k = name then some v else ownGet rest name

/-- The read `obj[name]`. -/
def jsGet {α : Type} (o : List (String × α)) (name : String) : Ref α :=
  match ownGet o name with
  | some a => Ref.own a
  | none => if name ∈ objectPrototypeNames then Ref.inherited else Ref.undefined

/-- The write `obj[name] = v` (for a name other than `__proto__`, which
`uuidv4()` never returns): an existing own property keeps its place. -/
def ownSet {α : Type} : List (String × α) → String → α → List (String × α)
  | [], name, v => [(name, v)]
  | (k, x) :: rest, name, v =>
    if k = name then (k, v) :: rest else (k, x) :: ownSet rest name v

/-- The statement `delete obj[name]`: only an own property is removed. -/
def ownDelete {α : Type} (o : List (String × α)) (name : String) : List (String × α) :=
  o.filter (fun e => decide (e.1 ≠ name))

/-- Truthiness of a value read from a store. -/
def Ref.truthy {α : Type} : Ref α → Bool
  | Ref.undefined => false
  | Ref.inherited => true
  | Ref.own _ => true

/-- Conversion of a request field to a property name (`undefined` reads the
property called "undefined"). -/
def propKey : Option String → String
  | none => "undefined"
  | some s => s

/-- The comparison `Date.now() > x` where `x` may be `undefined`: a comparison
with `undefined` is false. -/
def dateGt (now : Nat) : Option Nat → Bool
  | none => false
  | some e => decide (now > e)

/-! ## Data model -/

/-- Value stored in `keys[newKey]`. -/
structure KeyData where
  userId : String
  expiresAt : Nat
  isPaid : Bool
  deriving DecidableEq, Repr

/-- Value stored in `scripts[scriptId]`; `userId` is copied from the key data
read at creation and is `undefined` when that read hit `Object.prototype`. -/
structure Script where
  id : String
  key : String
  userId : Option String
  code : String
  isPaid : Bool
  whitelist : List (Option String)
  blacklist : List (Option String)
  executions : Nat
  deriving DecidableEq, Repr

/-- The two in-memory stores. -/
structure State where
  scripts : List (String × Script)
  keys : List (String × KeyData)
  deriving DecidableEq, Repr

/-- The constant `plans['1-month']`. -/
def plans1Month : Nat := 30 * 24 * 60 * 60 * 1000

/-- Response bodies the handlers send. -/
inductive Body where
  | error (message : String)
  | text (content : String)
  | empty
  | issued (key : String) (expiresAt : Nat) (plan : String)
  | valid (plan : String)
  | created (id : String) (key : String)
  | listing (rows : List (String × Bool × Nat))
  | lists (whitelist : Option (List (Option String))) (blacklist : Option (List (Option String)))
  | uncaught
  deriving DecidableEq, Repr

/-- An HTTP response: status code and body. -/
structure Response where
  status : Nat
  body : Body
  deriving DecidableEq, Repr

/-! ## Field reads on values read from the stores -/

/-- The read `keyData.userId`. -/
def keyUserId : Ref KeyData → Option String
  | Ref.own kd => some kd.userId
  | _ => none

/-- The read `keyData.expiresAt`. -/
def keyExpiresAt : Ref KeyData → Option Nat
  | Ref.own kd => some kd.expiresAt
  | _ => none

/-- Truthiness of `keyData.isPaid`. -/
def keyIsPaid : Ref KeyData → Bool
  | Ref.own kd => kd.isPaid
  | _ => false

/-- The read `script.key`. -/
def scriptKey : Ref Script → Option String
  | Ref.own s => some s.key
  | _ => none

/-! ## Handlers -/

/-- Body of the 403 response of `GET /raw/:id`. -/
def unauthorized : Response := ⟨403, Body.text "Unauthorized"⟩

/-- Body sent to a blacklisted user. -/
def kickBlacklisted : Response :=
  ⟨200, Body.text "game.Players.LocalPlayer:Kick(\"You are blacklisted from this script.\")"⟩

/-- Body sent to a user missing from a non-empty whitelist. -/
def kickNotWhitelisted : Response :=
  ⟨200, Body.text "game.Players.LocalPlayer:Kick(\"You are not whitelisted for this script.\")"⟩

/-- Handler of `POST /api/free-key`; `newKey` is the value `uuidv4()` returns. -/
def postFreeKey (st : State) (now : Nat) (newKey : String) (userId : Option String) :
    Response × State :=
  match userId with
  | none => (⟨400, Body.error "User ID is required."⟩, st)
  | some u =>
    if u = "" then (⟨400, Body.error "User ID is required."⟩, st)
    else if st.keys.any (fun e => decide (e.2.userId = u)) then
      (⟨403, Body.error "You have already received a key."⟩, st)
    else
      let expiresAt := now + plans1Month
      (⟨200, Body.issued newKey expiresAt "1-month"⟩,
        { st with keys := ownSet st.keys newKey ⟨u, expiresAt, false⟩ })

/-- Handler of `POST /api/check-key`. -/
def postCheckKey (st : State) (now : Nat) (key : Option String) : Response × State :=
  let keyData := jsGet st.keys (propKey key)
  if !keyData.truthy || dateGt now (keyExpiresAt keyData) then
    (⟨401, Body.error "Invalid or expired key."⟩,
      { st with keys := ownDelete st.keys (propKey key) })
  else
    (⟨200, Body.valid (if keyIsPaid keyData then "Paid" else "Free")⟩, st)

/-- Handler of `POST /api/scripts`; `scriptId` is the value `uuidv4()` returns. -/
def postScripts (st : State) (now : Nat) (scriptId : String) (code : Option String)
    (isPaid : Bool) (key : Option String) : Response × State :=
  match code, key with
  | some c, some k =>
    if c = "" ∨ k = "" then (⟨400, Body.error "Code and API key are required."⟩, st)
    else
      let keyData := jsGet st.keys k
      if !keyData.truthy || dateGt now (keyExpiresAt keyData) then
        (⟨401, Body.error "Invalid or expired key."⟩, st)
      else
        (⟨200, Body.created scriptId k⟩,
          { st with scripts := (ownSet st.scripts scriptId
              ⟨scriptId, k, keyUserId keyData, c, isPaid, [], [], 0⟩) })
  | _, _ => (⟨400, Body.error "Code and API key are required."⟩, st)

/-- Handler of `GET /api/scripts`. -/
def getScripts (st : State) : Response × State :=
  (⟨200, Body.listing (st.scripts.map (fun e => (e.2.id, e.2.isPaid, e.2.executions)))⟩, st)

/-- Handler of `DELETE /api/scripts/:id`. -/
def deleteScript (st : State) (id : String) : Response × State :=
  if (jsGet st.scripts id).truthy then
    (⟨200, Body.text "Script deleted"⟩, { st with scripts := ownDelete st.scripts id })
  else (⟨404, Body.text "Script not found"⟩, st)

/-- Handler of `GET /api/users/:id`. -/
def getUsers (st : State) (id : String) : Response × State :=
  match jsGet st.scripts id with
  | Ref.own s => (⟨200, Body.lists (some s.whitelist) (some s.blacklist)⟩, st)
  | Ref.inherited => (⟨200, Body.lists none none⟩, st)
  | Ref.undefined => (⟨404, Body.text "Script not found."⟩, st)

/-- Handler of `POST /api/users/:id/:listType`.  On a member of
`Object.prototype` the read `script[listType]` is `undefined` and the call of
`includes` throws, which Express answers with status 500. -/
def postUsers (st : State) (id : String) (listType : String) (userId : Option String) :
    Response × State :=
  let script := jsGet st.scripts id
  if !script.truthy || (listType ≠ "whitelist" ∧ listType ≠ "blacklist") then
    (⟨404, Body.text "Invalid script or list type."⟩, st)
  else
    match script with
    | Ref.own s =>
      if listType = "whitelist" then
        (⟨200, Body.text "User added to whitelist."⟩,
          if s.whitelist.contains userId then st
          else { st with scripts := (ownSet st.scripts id
                  { s with whitelist := s.whitelist ++ [userId] }) })
      else
        (⟨200, Body.text "User added to blacklist."⟩,
          if s.blacklist.contains userId then st
          else { st with scripts := (ownSet st.scripts id
                  { s with blacklist := s.blacklist ++ [userId] }) })
    | _ => (⟨500, Body.uncaught⟩, st)

/-- Handler of `DELETE /api/users/:id/:listType`: `indexOf` and `splice`
remove the first occurrence. -/
def deleteUsers (st : State) (id : String) (listType : String) (userId : Option String) :
    Response × State :=
  let script := jsGet st.scripts id
  if !script.truthy || (listType ≠ "whitelist" ∧ listType ≠ "blacklist") then
    (⟨404, Body.text "Invalid script or list type."⟩, st)
  else
    match script with
    | Ref.own s =>
      if listType = "whitelist" then
        (⟨200, Body.text "User removed from whitelist."⟩,
          if s.whitelist.contains userId then
            { st with scripts := (ownSet st.scripts id
                { s with whitelist := s.whitelist.erase userId }) }
          else st)
      else
        (⟨200, Body.text "User removed from blacklist."⟩,
          if s.blacklist.contains userId then
            { st with scripts := (ownSet st.scripts id
                { s with blacklist := s.blacklist.erase userId }) }
          else st)
    | _ => (⟨500, Body.uncaught⟩, st)

/-- Handler of `GET /raw/:id`.  A member of `Object.prototype` read as the
script has no `isPaid` and no `code`: the increment touches no store and the
body sent is empty. -/
def getRaw (st : State) (now : Nat) (id : String) (key : Option String)
    (userId : Option String) : Response × State :=
  let script := jsGet st.scripts id
  let keyData := jsGet st.keys (propKey key)
  if !script.truthy || scriptKey script ≠ key || !keyData.truthy
      || keyUserId keyData ≠ userId || dateGt now (keyExpiresAt keyData) then
    (unauthorized, st)
  else
    match script with
    | Ref.own s =>
      if s.isPaid && s.blacklist.contains userId then (kickBlacklisted, st)
      else if s.isPaid && (decide (s.whitelist.length > 0) && !s.whitelist.contains userId) then
        (kickNotWhitelisted, st)
      else
        (⟨200, Body.text s.code⟩,
          { st with scripts := (ownSet st.scripts id
              { s with executions := s.executions + 1 }) })
    | _ => (⟨200, Body.empty⟩, st)

/-! ## Requests served one after the other -/

/-- A request together with the identifier `uuidv4()` would return for it. -/
inductive Request where
  | freeKey (newKey : String) (userId : Option String)
  | checkKey (key : Option String)
  | createScript (scriptId : String) (code : Option String) (isPaid : Bool)
      (key : Option String)
  | listScripts
  | deleteScript (id : String)
  | getLists (id : String)
  | addToList (id : String) (listType : String) (userId : Option String)
  | removeFromList (id : String) (listType : String) (userId : Option String)
  | raw (id : String) (key : Option String) (userId : Option String)
  deriving DecidableEq, Repr

/-- Dispatch of one request at instant `now`. -/
def handle (st : State) (now : Nat) : Request → Response × State
  | Request.freeKey newKey userId => postFreeKey st now newKey userId
  | Request.checkKey key => postCheckKey st now key
  | Request.createScript scriptId code isPaid key => postScripts st now scriptId code isPaid key
  | Request.listScripts => getScripts st
  | Request.deleteScript id => deleteScript st id
  | Request.getLists id => getUsers st id
  | Request.addToList id listType userId => postUsers st id listType userId
  | Request.removeFromList id listType userId => deleteUsers st id listType userId
  | Request.raw id key userId => getRaw st now id key userId

/-- Serve a sequence of timed requests; returns the responses in order and the
final state. -/
def run : State → List (Nat × Request) → List Response × State
  | st, [] => ([], st)
  | st, (now, r) :: rest =>
    let out := handle st now r
    let tail := run out.2 rest
    (out.1 :: tail.1, tail.2)

/-- The stores at server start. -/
def emptyState : State := ⟨[], []⟩

/-- The scenario of the specification: alice receives a key, creates a paid
script with it and puts bob on its blacklist. -/
def scenario : List (Nat × Request) :=
  [(1000, Request.freeKey "k1" (some "alice")),
   (2000, Request.createScript "s1" (some "print(1)") true (some "k1")),
   (3000, Request.addToList "s1" "blacklist" (some "bob"))]

/-- State after a served access: the counter of the stored script goes up by
one (the effect of `script.executions++`). -/
def served (st : State) (id : String) (S : Script) : State :=
  { st with scripts := (ownSet st.scripts id { S with executions := S.executions + 1 }) }

/-- State after `keys[name] = kd`. -/
def withKey (st : State) (name : String) (kd : KeyData) : State :=
  { st with keys := ownSet st.keys name kd }

/-- State after `delete keys[name]`. -/
def withoutKey (st : State) (name : String) : State :=
  { st with keys := ownDelete st.keys name }

/-- Identifier a request takes from `uuidv4()` when it stores a record. -/
def Request.uuid : Request → Option String
  | Request.freeKey newKey _ => some newKey
  | Request.createScript scriptId _ _ _ => some scriptId
  | _ => none

/-- The read `script[listType]` for one of the two list names. -/
def listOf (s : Script) (listType : String) : List (Option String) :=
  if listType = "whitelist" then s.whitelist else s.blacklist

/-- The script after its list `listType` is replaced by `l`. -/
def withList (s : Script) (listType : String) (l : List (Option String)) : Script :=
  if listType = "whitelist" then { s with whitelist := l } else { s with blacklist := l }

/-- State after `scripts[id] = s`. -/
def withScript (st : State) (id : String) (s : Script) : State :=
  { st with scripts := (ownSet st.scripts id s) }

/-- The four changes the list handlers make to a stored script: `push` of a
value the list does not include, `splice` of the first occurrence of a value
the list includes. -/
inductive ListEdit (s : Script) : Script → Prop where
  | addWhitelist (u : Option String) (h : s.whitelist.contains u = false) :
      ListEdit s { s with whitelist := s.whitelist ++ [u] }
  | addBlacklist (u : Option String) (h : s.blacklist.contains u = false) :
      ListEdit s { s with blacklist := s.blacklist ++ [u] }
  | removeWhitelist (u : Option String) (h : s.whitelist.contains u = true) :
      ListEdit s { s with whitelist := s.whitelist.erase u }
  | removeBlacklist (u : Option String) (h : s.blacklist.contains u = true) :
      ListEdit s { s with blacklist := s.blacklist.erase u }

/-- Whether `GET /raw/:id` reaches `script.executions++` for a stored script:
none of the tests of its first guard holds and neither kick is sent. -/
def rawAllows (st : State) (now : Nat) (id : String) (key : Option String)
    (userId : Option String) : Bool :=
  match jsGet st.scripts id with
  | Ref.own s =>
    let keyData := jsGet st.keys (propKey key)
    (!(decide (some s.key ≠ key) || !keyData.truthy || decide (keyUserId keyData ≠ userId)
        || dateGt now (keyExpiresAt keyData)))
      && (!(s.isPaid && s.blacklist.contains userId))
      && (!(s.isPaid && (decide (s.whitelist.length > 0) && !s.whitelist.contains userId)))
  | _ => false

/-- Whether request `r` is an access to the script `id` that is served. -/
def isAllow (st : State) (now : Nat) (r : Request) (id : String) : Bool :=
  match r with
  | Request.raw id2 key userId => decide (id2 = id) && rawAllows st now id key userId
  | _ => false

/-- Number of served accesses to the script `id` along a sequence of requests. -/
def allowCount (id : String) : State → List (Nat × Request) → Nat
  | _, [] => 0
  | st, (now, r) :: rest =>
    (if isAllow st now r id then 1 else 0) + allowCount id (handle st now r).2 rest

/-- Identifiers the requests of a sequence take from `uuidv4()`. -/
def uuidsOf (reqs : List (Nat × Request)) : List String :=
  reqs.filterMap (fun tr => tr.2.uuid)

/-- What `uuidv4()` provides along a sequence of requests: identifiers that
are pairwise distinct and are no property names of `Object.prototype`. -/
def FreshUuids (reqs : List (Nat × Request)) : Prop :=
  (uuidsOf reqs).Nodup ∧ ∀ u ∈ uuidsOf reqs, u ∉ objectPrototypeNames

/-- Link between the stored scripts and the stored keys, relative to the
identifiers `used` so far: every stored key sits under a used identifier, and
every stored script names a used identifier as its key, or an inherited
property name with no owner recorded, and carries the userId of its key as
long as that key is stored. -/
def OwnerInv (used : List String) (st : State) : Prop :=
  (∀ k kd, ownGet st.keys k = some kd → k ∈ used) ∧
    (∀ id s, ownGet st.scripts id = some s →
      (s.key ∈ used ∨ (s.key ∈ objectPrototypeNames ∧ s.userId = none)) ∧
        (∀ kd, ownGet st.keys s.key = some kd → s.userId = some kd.userId))

/-! ## Lemmas on the stores -/

theorem ownSet_eq_self {α : Type} (o : List (String × α)) (name : String) (v w : α)
    (hg : ownGet o name = some v) (hs : ownSet o name w = o) : w = v := by
  induction o with
  | nil => simp [ownGet] at hg
  | cons e rest ih =>
    obtain ⟨k, x⟩ := e
    by_cases hk : k = name
    · simp [ownGet, ownSet, hk] at hg hs
      rw [← hg, hs]
    · simp [ownGet, ownSet, hk] at hg hs
      exact ih hg hs

theorem ownSet_mem {α : Type} (o : List (String × α)) (name : String) (v : α) :
    (name, v) ∈ ownSet o name v := by
  induction o with
  | nil => simp [ownSet]
  | cons e rest ih =>
    obtain ⟨k, x⟩ := e
    by_cases hk : k = name
    · simp [ownSet, hk]
    · simp [ownSet, hk, ih]

theorem ownGet_ownSet_self {α : Type} (o : List (String × α)) (name : String) (v : α) :
    ownGet (ownSet o name v) name = some v := by
  induction o with
  | nil => simp [ownSet, ownGet]
  | cons e rest ih =>
    obtain ⟨k, x⟩ := e
    by_cases hk : k = name
    · simp [ownSet, ownGet, hk]
    · simp [ownSet, ownGet, hk, ih]

theorem ownGet_ownSet_ne {α : Type} (o : List (String × α)) (name other : String) (v : α)
    (h : name ≠ other) : ownGet (ownSet o name v) other = ownGet o other := by
  induction o with
  | nil => simp [ownSet, ownGet, h]
  | cons e rest ih =>
    obtain ⟨k, x⟩ := e
    by_cases hk : k = name
    · subst hk
      simp [ownSet, ownGet, h]
    · by_cases hk2 : k = other
      · subst hk2
        simp [ownSet, ownGet, hk]
      · simp [ownSet, ownGet, hk, hk2, ih]

theorem ownGet_ownDelete_self {α : Type} (o : List (String × α)) (name : String) :
    ownGet (ownDelete o name) name = none := by
  induction o with
  | nil => simp [ownDelete, ownGet]
  | cons e rest ih =>
    obtain ⟨k, x⟩ := e
    by_cases hk : k = name
    · simpa [ownDelete, hk] using ih
    · simpa [ownDelete, List.filter_cons, hk, ownGet] using ih

theorem ownGet_ownDelete_ne {α : Type} (o : List (String × α)) (name other : String)
    (h : other ≠ name) : ownGet (ownDelete o name) other = ownGet o other := by
  induction o with
  | nil => simp [ownDelete, ownGet]
  | cons e rest ih =>
    obtain ⟨k, x⟩ := e
    by_cases hk : k = name
    · have hko : k ≠ other := fun h2 => h (h2.symm.trans hk)
      simpa [ownDelete, hk, ownGet, hko, h.symm] using ih
    · by_cases hk2 : k = other
      · subst hk2
        simp [ownDelete, List.filter_cons, hk, ownGet]
      · simpa [ownDelete, List.filter_cons, hk, ownGet, hk2] using ih

theorem ownSet_fresh {α : Type} (o : List (String × α)) (name : String) (v : α)
    (h : ownGet o name = none) : ownSet o name v = o ++ [(name, v)] := by
  induction o with
  | nil => simp [ownSet]
  | cons e rest ih =>
    obtain ⟨k, x⟩ := e
    by_cases hk : k = name
    · simp [ownGet, hk] at h
    · simp [ownGet, hk] at h
      simp [ownSet, hk, ih h]

theorem ownGet_append_some {α : Type} (o extra : List (String × α)) (name : String) (v : α)
    (h : ownGet o name = some v) : ownGet (o ++ extra) name = some v := by
  induction o with
  | nil => simp [ownGet] at h
  | cons e rest ih =>
    obtain ⟨k, x⟩ := e
    by_cases hk : k = name
    · simpa [ownGet, hk] using h
    · simp [ownGet, hk] at h
      simpa [ownGet, hk] using ih h

theorem ownGet_ownDelete_none {α : Type} (o : List (String × α)) (name other : String)
    (h : ownGet o other = none) : ownGet (ownDelete o name) other = none := by
  by_cases hk : other = name
  · subst hk
    exact ownGet_ownDelete_self o other
  · rw [ownGet_ownDelete_ne o name other hk, h]

/-! ## Handlers that leave the key store alone -/

theorem postScripts_keys (st : State) (now : Nat) (scriptId : String) (code : Option String)
    (isPaid : Bool) (key : Option String) :
    (postScripts st now scriptId code isPaid key).2.keys = st.keys := by
  simp only [postScripts]
  repeat' split
  all_goals rfl

theorem deleteScript_keys (st : State) (id : String) :
    (deleteScript st id).2.keys = st.keys := by
  simp only [deleteScript]
  repeat' split
  all_goals rfl

theorem getUsers_keys (st : State) (id : String) : (getUsers st id).2.keys = st.keys := by
  simp only [getUsers]
  repeat' split
  all_goals rfl

theorem postUsers_keys (st : State) (id listType : String) (userId : Option String) :
    (postUsers st id listType userId).2.keys = st.keys := by
  simp only [postUsers]
  repeat' split
  all_goals rfl

theorem deleteUsers_keys (st : State) (id listType : String) (userId : Option String) :
    (deleteUsers st id listType userId).2.keys = st.keys := by
  simp only [deleteUsers]
  repeat' split
  all_goals rfl

theorem getRaw_keys (st : State) (now : Nat) (id : String) (key userId : Option String) :
    (getRaw st now id key userId).2.keys = st.keys := by
  simp only [getRaw]
  repeat' split
  all_goals rfl

/-- A name under which no key is stored stays so through any request that does
not draw that name from `uuidv4()`. -/
theorem handle_keys_absent (st : State) (now : Nat) (r : Request) (K : String)
    (h : ownGet st.keys K = none) (hr : r.uuid ≠ some K) :
    ownGet (handle st now r).2.keys K = none := by
  cases r with
  | freeKey newKey userId =>
    have hne : newKey ≠ K := by
      intro hc
      exact hr (by simp [Request.uuid, hc])
    simp only [handle, postFreeKey]
    repeat' split
    · exact h
    · exact h
    · exact h
    · simp only []
      rw [ownGet_ownSet_ne _ _ _ _ hne]
      exact h
  | checkKey key =>
    simp only [handle, postCheckKey]
    split
    · exact ownGet_ownDelete_none _ _ _ h
    · exact h
  | createScript scriptId code isPaid key => simpa [handle, postScripts_keys] using h
  | listScripts => simpa [handle, getScripts] using h
  | deleteScript id => simpa [handle, deleteScript_keys] using h
  | getLists id => simpa [handle, getUsers_keys] using h
  | addToList id listType userId => simpa [handle, postUsers_keys] using h
  | removeFromList id listType userId => simpa [handle, deleteUsers_keys] using h
  | raw id key userId => simpa [handle, getRaw_keys] using h

theorem run_keys_absent (reqs : List (Nat × Request)) (st : State) (K : String)
    (h : ownGet st.keys K = none) (hr : ∀ tr ∈ reqs, tr.2.uuid ≠ some K) :
    ownGet (run st reqs).2.keys K = none := by
  induction reqs generalizing st with
  | nil => simpa [run] using h
  | cons tr rest ih =>
    obtain ⟨now, r⟩ := tr
    simp only [run]
    apply ih
    · exact handle_keys_absent st now r K h (hr (now, r) (List.mem_cons_self _ _))
    · intro tr2 htr2
      exact hr tr2 (List.mem_cons_of_mem _ htr2)

/-- A name that is neither stored nor inherited is answered as invalid. -/
theorem postCheckKey_absent (st : State) (now : Nat) (K : String)
    (h : ownGet st.keys K = none) (hp : K ∉ objectPrototypeNames) :
    (postCheckKey st now (some K)).1 = ⟨401, Body.error "Invalid or expired key."⟩ := by
  simp [postCheckKey, jsGet, h, hp, propKey, Ref.truthy]

/-! ## Access resolution (`GET /raw/:id`) -/

/-- C1, evaluated on the failing input: from the empty stores a script is
created with the key name "constructor", under which no key is stored (the
creation answers 200 and records no owner); then an access that presents
"constructor" and carries no userId is served the code and the counter goes
from 0 to 1, where a 403 is due. -/
theorem getRaw_constructor_served :
    run emptyState
        [(1000, Request.createScript "s1" (some "secret()") true (some "constructor"))]
      = ([⟨200, Body.created "s1" "constructor"⟩],
          ⟨[("s1", ⟨"s1", "constructor", none, "secret()", true, [], [], 0⟩)], []⟩) ∧
      ownGet (State.mk [("s1", ⟨"s1", "constructor", none, "secret()", true, [], [], 0⟩)]
          []).keys "constructor" = none ∧
      getRaw ⟨[("s1", ⟨"s1", "constructor", none, "secret()", true, [], [], 0⟩)], []⟩
          2000 "s1" (some "constructor") none
        = (⟨200, Body.text "secret()"⟩,
            ⟨[("s1", ⟨"s1", "constructor", none, "secret()", true, [], [], 1⟩)], []⟩) := by
  decide

/-- With a userId present in the request: for a stored script, a presented key
that is not stored, or is not the key the script was created with, or is bound
to another user than the requester, or is expired, gets the 403 response and
the stores stay as they were, whatever the tier and the lists of the script. -/
theorem getRaw_binding_failure (st : State) (now : Nat) (id : String) (S : Script)
    (K U : String) (hS : ownGet st.scripts id = some S)
    (h : ownGet st.keys K = none ∨ K ≠ S.key ∨
      ∃ kd, ownGet st.keys K = some kd ∧ (kd.userId ≠ U ∨ now > kd.expiresAt)) :
    getRaw st now id (some K) (some U) = (⟨403, Body.text "Unauthorized"⟩, st) := by
  by_cases hK : S.key = K
  · cases hg : ownGet st.keys K with
    | none =>
      by_cases hp : K ∈ objectPrototypeNames <;>
        simp [getRaw, jsGet, hS, hg, hp, propKey, scriptKey, Ref.truthy, keyUserId,
          keyExpiresAt, dateGt, unauthorized]
    | some kd =>
      rcases h with h | h | ⟨kd2, h1, h2⟩
      · simp [hg] at h
      · exact absurd hK.symm h
      · rw [hg] at h1
        cases h1
        rcases h2 with h2 | h2
        · simp [getRaw, jsGet, hS, hg, propKey, scriptKey, Ref.truthy, keyUserId,
            keyExpiresAt, dateGt, unauthorized, h2]
        · simp [getRaw, jsGet, hS, hg, propKey, scriptKey, Ref.truthy, keyUserId,
            keyExpiresAt, dateGt, unauthorized, h2]
  · simp [getRaw, jsGet, hS, propKey, scriptKey, Ref.truthy, unauthorized, hK]

/-- The scenario of the specification: bob presents the key of alice for her
script, on whose blacklist he is, and gets the 403 response, not a kick. -/
theorem getRaw_binding_failure_witness :
    ownGet (run emptyState scenario).2.scripts "s1"
        = some ⟨"s1", "k1", some "alice", "print(1)", true, [], [some "bob"], 0⟩ ∧
      (∃ kd, ownGet (run emptyState scenario).2.keys "k1" = some kd ∧
        (kd.userId ≠ "bob" ∨ 5000 > kd.expiresAt)) ∧
      getRaw (run emptyState scenario).2 5000 "s1" (some "k1") (some "bob")
        = (⟨403, Body.text "Unauthorized"⟩, (run emptyState scenario).2) :=
  ⟨by decide, ⟨⟨"alice", 1000 + plans1Month, false⟩, by decide, Or.inl (by decide)⟩,
    getRaw_binding_failure (run emptyState scenario).2 5000 "s1"
      ⟨"s1", "k1", some "alice", "print(1)", true, [], [some "bob"], 0⟩ "k1" "bob"
      (by decide)
      (Or.inr (Or.inr ⟨⟨"alice", 1000 + plans1Month, false⟩, by decide, Or.inl (by decide)⟩))⟩

theorem served_ne (st : State) (id : String) (S : Script)
    (hS : ownGet st.scripts id = some S) : served st id S ≠ st := by
  intro h
  have h1 : ownSet st.scripts id { S with executions := S.executions + 1 } = st.scripts := by
    have := congrArg State.scripts h
    simpa [served] using this
  have h2 := ownSet_eq_self st.scripts id S _ hS h1
  have h3 := congrArg Script.executions h2
  simp at h3

/-- C2: on a paid script, a requester who passes the key-binding checks and is
on the blacklist is sent the blacklist kick, also when the whitelist contains
the requester, and the stores stay as they were. -/
theorem getRaw_blacklist_dominates (st : State) (now : Nat) (id : String) (S : Script)
    (kd : KeyData) (U : String) (hS : ownGet st.scripts id = some S)
    (hpaid : S.isPaid = true) (hk : ownGet st.keys S.key = some kd)
    (hU : kd.userId = U) (hexp : now ≤ kd.expiresAt) (hb : some U ∈ S.blacklist) :
    getRaw st now id (some S.key) (some U)
      = (⟨200, Body.text
          "game.Players.LocalPlayer:Kick(\"You are blacklisted from this script.\")"⟩, st) := by
  simp [getRaw, jsGet, hS, hk, propKey, scriptKey, Ref.truthy, keyUserId, keyExpiresAt,
    dateGt, hU, hexp, hpaid, hb, kickBlacklisted]

/-- Witness of C2: bob holds the creating key of a paid script and is on both
of its lists. -/
theorem getRaw_blacklist_dominates_witness :
    getRaw ⟨[("s1", ⟨"s1", "k1", some "bob", "print(1)", true, [some "bob"], [some "bob"], 0⟩)],
        [("k1", ⟨"bob", 9000, false⟩)]⟩ 5000 "s1" (some "k1") (some "bob")
      = (⟨200, Body.text
          "game.Players.LocalPlayer:Kick(\"You are blacklisted from this script.\")"⟩,
        ⟨[("s1", ⟨"s1", "k1", some "bob", "print(1)", true, [some "bob"], [some "bob"], 0⟩)],
        [("k1", ⟨"bob", 9000, false⟩)]⟩) :=
  getRaw_blacklist_dominates
    ⟨[("s1", ⟨"s1", "k1", some "bob", "print(1)", true, [some "bob"], [some "bob"], 0⟩)],
        [("k1", ⟨"bob", 9000, false⟩)]⟩ 5000 "s1"
    ⟨"s1", "k1", some "bob", "print(1)", true, [some "bob"], [some "bob"], 0⟩
    ⟨"bob", 9000, false⟩ "bob" (by decide) rfl (by decide) rfl (by decide) (by decide)

/-- C3: on a paid script, for a requester who passes the key-binding checks and
is not on the blacklist, the payload is served (and the counter incremented)
exactly when the whitelist is empty or contains the requester; otherwise the
whitelist kick is sent and the stores stay as they were. -/
theorem getRaw_whitelist_rule (st : State) (now : Nat) (id : String) (S : Script)
    (kd : KeyData) (U : String) (hS : ownGet st.scripts id = some S)
    (hpaid : S.isPaid = true) (hk : ownGet st.keys S.key = some kd)
    (hU : kd.userId = U) (hexp : now ≤ kd.expiresAt) (hb : some U ∉ S.blacklist) :
    (getRaw st now id (some S.key) (some U) = (⟨200, Body.text S.code⟩, served st id S)
        ↔ (S.whitelist = [] ∨ some U ∈ S.whitelist)) ∧
      (¬ (S.whitelist = [] ∨ some U ∈ S.whitelist) →
        getRaw st now id (some S.key) (some U)
          = (⟨200, Body.text
              "game.Players.LocalPlayer:Kick(\"You are not whitelisted for this script.\")"⟩,
            st)) := by
  have hkick : ¬ (S.whitelist = [] ∨ some U ∈ S.whitelist) →
      getRaw st now id (some S.key) (some U) = (kickNotWhitelisted, st) := by
    intro hw
    have h1 : S.whitelist ≠ [] := fun h => hw (Or.inl h)
    have h2 : some U ∉ S.whitelist := fun h => hw (Or.inr h)
    have h3 : 0 < S.whitelist.length := List.length_pos.mpr h1
    simp [getRaw, jsGet, hS, hk, propKey, scriptKey, Ref.truthy, keyUserId, keyExpiresAt,
      dateGt, hU, hexp, hpaid, hb, h2, h3]
  refine ⟨⟨?_, ?_⟩, ?_⟩
  · intro h
    by_contra hw
    rw [hkick hw] at h
    have := congrArg Prod.snd h
    exact served_ne st id S hS this.symm
  · intro hw
    rcases hw with hw | hw
    · simp [getRaw, jsGet, hS, hk, propKey, scriptKey, Ref.truthy, keyUserId, keyExpiresAt,
        dateGt, hU, hexp, hpaid, hb, hw, served]
    · simp [getRaw, jsGet, hS, hk, propKey, scriptKey, Ref.truthy, keyUserId, keyExpiresAt,
        dateGt, hU, hexp, hpaid, hb, hw, served]
  · intro hw
    rw [hkick hw]
    rfl

/-- Witness of C3 on the scenario, where the whitelist of the script of alice
is empty: alice is served. -/
theorem getRaw_whitelist_rule_witness :
    (getRaw (run emptyState scenario).2 5000 "s1" (some "k1") (some "alice")
        = (⟨200, Body.text "print(1)"⟩, served (run emptyState scenario).2 "s1"
            ⟨"s1", "k1", some "alice", "print(1)", true, [], [some "bob"], 0⟩)
        ↔ (([] : List (Option String)) = [] ∨ some "alice" ∈ ([] : List (Option String)))) ∧
      (¬ (([] : List (Option String)) = [] ∨ some "alice" ∈ ([] : List (Option String))) →
        getRaw (run emptyState scenario).2 5000 "s1" (some "k1") (some "alice")
          = (⟨200, Body.text
              "game.Players.LocalPlayer:Kick(\"You are not whitelisted for this script.\")"⟩,
            (run emptyState scenario).2)) :=
  getRaw_whitelist_rule (run emptyState scenario).2 5000 "s1"
    ⟨"s1", "k1", some "alice", "print(1)", true, [], [some "bob"], 0⟩
    ⟨"alice", 1000 + plans1Month, false⟩ "alice" (by decide) rfl (by decide) rfl
    (by decide) (by decide)

/-- C4: on a free script, a requester who passes the key-binding checks is
served the code and the counter is incremented, whatever the two lists
contain. -/
theorem getRaw_free_ignores_lists (st : State) (now : Nat) (id : String) (S : Script)
    (kd : KeyData) (U : String) (hS : ownGet st.scripts id = some S)
    (hfree : S.isPaid = false) (hk : ownGet st.keys S.key = some kd)
    (hU : kd.userId = U) (hexp : now ≤ kd.expiresAt) :
    getRaw st now id (some S.key) (some U) = (⟨200, Body.text S.code⟩, served st id S) := by
  simp [getRaw, jsGet, hS, hk, propKey, scriptKey, Ref.truthy, keyUserId, keyExpiresAt,
    dateGt, hU, hexp, hfree, served]

/-- Witness of C4: bob is on the blacklist of a free script whose whitelist
names only carol, and is served. -/
theorem getRaw_free_ignores_lists_witness :
    getRaw ⟨[("s1", ⟨"s1", "k1", some "bob", "print(1)", false, [some "carol"], [some "bob"], 0⟩)],
        [("k1", ⟨"bob", 9000, false⟩)]⟩ 9000 "s1" (some "k1") (some "bob")
      = (⟨200, Body.text "print(1)"⟩,
        ⟨[("s1", ⟨"s1", "k1", some "bob", "print(1)", false, [some "carol"], [some "bob"], 1⟩)],
        [("k1", ⟨"bob", 9000, false⟩)]⟩) :=
  getRaw_free_ignores_lists
    ⟨[("s1", ⟨"s1", "k1", some "bob", "print(1)", false, [some "carol"], [some "bob"], 0⟩)],
        [("k1", ⟨"bob", 9000, false⟩)]⟩ 9000 "s1"
    ⟨"s1", "k1", some "bob", "print(1)", false, [some "carol"], [some "bob"], 0⟩
    ⟨"bob", 9000, false⟩ "bob" (by decide) rfl (by decide) rfl (by decide)

/-- C5, the claim refuted: in the scenario, after the script is deleted (the
deletion answers 200), alice presenting her valid creating key gets the 403
response, the same response bob gets for a key-binding failure before the
deletion; the status is not 404. -/
theorem getRaw_missing_script_counterexample :
    (deleteScript (run emptyState scenario).2 "s1").1 = ⟨200, Body.text "Script deleted"⟩ ∧
      ownGet (deleteScript (run emptyState scenario).2 "s1").2.scripts "s1" = none ∧
      (getRaw (deleteScript (run emptyState scenario).2 "s1").2 5000 "s1" (some "k1")
          (some "alice")).1 = ⟨403, Body.text "Unauthorized"⟩ ∧
      (getRaw (deleteScript (run emptyState scenario).2 "s1").2 5000 "s1" (some "k1")
          (some "alice")).1.status ≠ 404 ∧
      (getRaw (deleteScript (run emptyState scenario).2 "s1").2 5000 "s1" (some "k1")
          (some "alice")).1
        = (getRaw (run emptyState scenario).2 5000 "s1" (some "k1") (some "bob")).1 := by
  decide

/-- C5 as amended: when no script is stored under the id, every presented key
and every requester get the 403 response, the one a key-binding failure gets,
and the stores stay as they were. -/
theorem getRaw_missing_script (st : State) (now : Nat) (id : String) (K : String)
    (userId : Option String) (h : ownGet st.scripts id = none) :
    getRaw st now id (some K) userId = (⟨403, Body.text "Unauthorized"⟩, st) := by
  by_cases hp : id ∈ objectPrototypeNames <;>
    simp [getRaw, jsGet, h, hp, scriptKey, Ref.truthy, unauthorized]

/-- Witness of the amended C5 on the scenario after the deletion. -/
theorem getRaw_missing_script_witness :
    getRaw (deleteScript (run emptyState scenario).2 "s1").2 5000 "s1" (some "k1")
        (some "alice")
      = (⟨403, Body.text "Unauthorized"⟩, (deleteScript (run emptyState scenario).2 "s1").2) :=
  getRaw_missing_script (deleteScript (run emptyState scenario).2 "s1").2 5000 "s1" "k1"
    (some "alice") (by decide)

/-! ## Key issuance and validation -/

/-- C6: two consecutive calls of the free-key handler for the same non-empty
userId, at any two instants: the second one answers with the duplicate error
and leaves the stores as the first call left them (also when it is made after
the expiry of a key the first call issued). -/
theorem postFreeKey_twice (st : State) (t1 t2 : Nat) (k1 k2 U : String) (hU : U ≠ "") :
    postFreeKey (postFreeKey st t1 k1 (some U)).2 t2 k2 (some U)
      = (⟨403, Body.error "You have already received a key."⟩,
          (postFreeKey st t1 k1 (some U)).2) := by
  by_cases hdup : (st.keys.any (fun e => decide (e.2.userId = U))) = true
  · have h1 : postFreeKey st t1 k1 (some U)
        = (⟨403, Body.error "You have already received a key."⟩, st) := by
      simp only [postFreeKey, hU, hdup, if_true, if_false]
    rw [h1]
    simp only [postFreeKey, hU, hdup, if_true, if_false]
  · have h1 : (postFreeKey st t1 k1 (some U)).2
        = { st with keys := ownSet st.keys k1 ⟨U, t1 + plans1Month, false⟩ } := by
      simp only [postFreeKey, hU, hdup, if_false]
      simp
    have h2 : (List.any (ownSet st.keys k1 ⟨U, t1 + plans1Month, false⟩)
        (fun e => decide (e.2.userId = U))) = true := by
      rw [List.any_eq_true]
      exact ⟨_, ownSet_mem st.keys k1 ⟨U, t1 + plans1Month, false⟩, by simp⟩
    rw [h1]
    simp only [postFreeKey, hU, h2, if_true, if_false]

/-- Witness of C6: from the empty stores, a second request made after the
expiry of the key issued by the first one. -/
theorem postFreeKey_twice_witness :
    postFreeKey (postFreeKey emptyState 1000 "k1" (some "alice")).2 9000000000 "k2"
        (some "alice")
      = (⟨403, Body.error "You have already received a key."⟩,
          ⟨[], [("k1", ⟨"alice", 2592001000, false⟩)]⟩) :=
  postFreeKey_twice emptyState 1000 9000000000 "k1" "k2" "alice" (by decide)

/-- C7, evaluated on the failing sequence: alice receives a key, the key
expires, one validation of it evicts it, and the next free-key request of
alice succeeds with a second key. -/
theorem run_second_free_key :
    (run emptyState
        [(1000, Request.freeKey "k1" (some "alice")),
         (2592001001, Request.checkKey (some "k1")),
         (2592001002, Request.freeKey "k2" (some "alice"))]).1
      = [⟨200, Body.issued "k1" 2592001000 "1-month"⟩,
         ⟨401, Body.error "Invalid or expired key."⟩,
         ⟨200, Body.issued "k2" 5184001002 "1-month"⟩] := by
  decide

/-- C8, evaluated on the failing input: the name "constructor", under which no
key is stored, is answered as a valid key of the Free plan at every instant. -/
theorem postCheckKey_constructor (now : Nat) :
    postCheckKey emptyState now (some "constructor")
      = (⟨200, Body.valid "Free"⟩, emptyState) := by
  simp [postCheckKey, jsGet, ownGet, emptyState, propKey, objectPrototypeNames, Ref.truthy,
    keyExpiresAt, dateGt, keyIsPaid]

/-- Issuance for a non-empty userId that no stored key carries. -/
theorem postFreeKey_issues (st : State) (now : Nat) (newKey U : String) (hU : U ≠ "")
    (hfree : ∀ e ∈ st.keys, e.2.userId ≠ U) :
    postFreeKey st now newKey (some U)
      = (⟨200, Body.issued newKey (now + plans1Month) "1-month"⟩,
          withKey st newKey ⟨U, now + plans1Month, false⟩) := by
  have hany : ¬ (st.keys.any (fun e => decide (e.2.userId = U))) = true := by
    rw [List.any_eq_true]
    rintro ⟨e, he, hx⟩
    exact hfree e he (by simpa using hx)
  simp only [postFreeKey, hU, hany, if_false, withKey]
  rfl

/-- C9: a key issued at `t0` by the free-key handler, under an identifier of
`uuidv4()` (which is never a property name of `Object.prototype`), is answered
as valid with plan Free at `t0` and up to its expiry instant; at every later instant its
validation answers 401 and removes it, and only it, from the key store; and
after that removal every validation of the same identifier answers 401, at any
instant and after any requests that do not draw that identifier again from
`uuidv4()`. -/
theorem key_lifecycle (st : State) (t0 : Nat) (newKey U : String) (hU : U ≠ "")
    (hfree : ∀ e ∈ st.keys, e.2.userId ≠ U) (huuid : newKey ∉ objectPrototypeNames) :
    postFreeKey st t0 newKey (some U)
        = (⟨200, Body.issued newKey (t0 + plans1Month) "1-month"⟩,
            withKey st newKey ⟨U, t0 + plans1Month, false⟩) ∧
      (∀ t, t ≤ t0 + plans1Month →
        postCheckKey (withKey st newKey ⟨U, t0 + plans1Month, false⟩) t (some newKey)
          = (⟨200, Body.valid "Free"⟩, withKey st newKey ⟨U, t0 + plans1Month, false⟩)) ∧
      (∀ t, t0 + plans1Month < t →
        postCheckKey (withKey st newKey ⟨U, t0 + plans1Month, false⟩) t (some newKey)
          = (⟨401, Body.error "Invalid or expired key."⟩,
              withoutKey (withKey st newKey ⟨U, t0 + plans1Month, false⟩) newKey)) ∧
      ownGet (withoutKey (withKey st newKey ⟨U, t0 + plans1Month, false⟩) newKey).keys newKey
        = none ∧
      (∀ k, k ≠ newKey →
        ownGet (withoutKey (withKey st newKey ⟨U, t0 + plans1Month, false⟩) newKey).keys k
          = ownGet (withKey st newKey ⟨U, t0 + plans1Month, false⟩).keys k) ∧
      (withoutKey (withKey st newKey ⟨U, t0 + plans1Month, false⟩) newKey).scripts
        = st.scripts ∧
      (∀ (reqs : List (Nat × Request)) (t : Nat),
        (∀ tr ∈ reqs, tr.2.uuid ≠ some newKey) →
        (postCheckKey
            (run (withoutKey (withKey st newKey ⟨U, t0 + plans1Month, false⟩) newKey) reqs).2
            t (some newKey)).1
          = ⟨401, Body.error "Invalid or expired key."⟩) := by
  have hget : ownGet (withKey st newKey ⟨U, t0 + plans1Month, false⟩).keys newKey
      = some ⟨U, t0 + plans1Month, false⟩ := ownGet_ownSet_self _ _ _
  have hgone : ownGet
      (withoutKey (withKey st newKey ⟨U, t0 + plans1Month, false⟩) newKey).keys newKey
      = none := ownGet_ownDelete_self _ _
  refine ⟨postFreeKey_issues st t0 newKey U hU hfree, ?_, ?_, hgone, ?_, rfl, ?_⟩
  · intro t ht
    simp [postCheckKey, jsGet, hget, propKey, Ref.truthy, keyExpiresAt, dateGt, keyIsPaid, ht]
  · intro t ht
    simp [postCheckKey, jsGet, hget, propKey, Ref.truthy, keyExpiresAt, dateGt, ht, withoutKey]
  · intro k hk
    exact ownGet_ownDelete_ne _ _ _ hk
  · intro reqs t hreqs
    exact postCheckKey_absent _ t newKey (run_keys_absent reqs _ newKey hgone hreqs) huuid

/-- Witness of C9: the key of alice, issued at instant 1000 into the empty
stores, validated at its expiry instant and one millisecond later. -/
theorem key_lifecycle_witness :
    postCheckKey (withKey emptyState "k1" ⟨"alice", 2592001000, false⟩) 2592001000 (some "k1")
        = (⟨200, Body.valid "Free"⟩, withKey emptyState "k1" ⟨"alice", 2592001000, false⟩) ∧
      postCheckKey (withKey emptyState "k1" ⟨"alice", 2592001000, false⟩) 2592001001 (some "k1")
        = (⟨401, Body.error "Invalid or expired key."⟩, emptyState) :=
  ⟨(key_lifecycle emptyState 1000 "k1" "alice" (by decide) (by simp [emptyState])
      (by decide)).2.1 2592001000 (by decide),
    (key_lifecycle emptyState 1000 "k1" "alice" (by decide) (by simp [emptyState])
      (by decide)).2.2.1 2592001001 (by decide)⟩

/-- C10, the claim refuted: carol, who holds no key, asks for one while alice
holds the key "k1", and `uuidv4()` returns "k1". The handler answers 200 with
an identifier that was in the key store before; the store afterwards is not
the old one plus one entry, and the key of alice is overwritten. -/
theorem postFreeKey_collision_counterexample :
    ownGet (State.mk [] [("k1", ⟨"alice", 2592001000, false⟩)]).keys "k1"
        = some ⟨"alice", 2592001000, false⟩ ∧
      postFreeKey ⟨[], [("k1", ⟨"alice", 2592001000, false⟩)]⟩ 5000 "k1" (some "carol")
        = (⟨200, Body.issued "k1" 2592005000 "1-month"⟩,
            ⟨[], [("k1", ⟨"carol", 2592005000, false⟩)]⟩) ∧
      (postFreeKey ⟨[], [("k1", ⟨"alice", 2592001000, false⟩)]⟩ 5000 "k1"
          (some "carol")).2.keys
        ≠ [("k1", ⟨"alice", 2592001000, false⟩), ("k1", ⟨"carol", 2592005000, false⟩)] ∧
      ownGet (postFreeKey ⟨[], [("k1", ⟨"alice", 2592001000, false⟩)]⟩ 5000 "k1"
          (some "carol")).2.keys "k1"
        ≠ some ⟨"alice", 2592001000, false⟩ := by
  decide

/-- C10 as amended: for a non-empty userId that no stored key carries, when the
identifier `uuidv4()` returns is not yet in the key store (the handler itself
does not test it), the free-key handler answers with that identifier,
expiry `now + 2592000000` and plan "1-month"; the key store afterwards is the
old one followed by the one new entry, with `isPaid` false; every key stored
before is still stored, unchanged; the script store is not touched. -/
theorem postFreeKey_success (st : State) (now : Nat) (newKey U : String) (hU : U ≠ "")
    (hfree : ∀ e ∈ st.keys, e.2.userId ≠ U) (hfresh : ownGet st.keys newKey = none) :
    plans1Month = 2592000000 ∧
      postFreeKey st now newKey (some U)
        = (⟨200, Body.issued newKey (now + 2592000000) "1-month"⟩,
            ⟨st.scripts, st.keys ++ [(newKey, ⟨U, now + 2592000000, false⟩)]⟩) ∧
      ownGet (st.keys ++ [(newKey, ⟨U, now + 2592000000, false⟩)]) newKey
        = some ⟨U, now + 2592000000, false⟩ ∧
      (∀ k kd, ownGet st.keys k = some kd →
        ownGet (st.keys ++ [(newKey, ⟨U, now + 2592000000, false⟩)]) k = some kd) := by
  have hplan : plans1Month = 2592000000 := by decide
  have hset := ownSet_fresh st.keys newKey ⟨U, now + 2592000000, false⟩ hfresh
  refine ⟨hplan, ?_, ?_, ?_⟩
  · rw [postFreeKey_issues st now newKey U hU hfree, hplan]
    simp [withKey, hset]
  · rw [← hset]
    exact ownGet_ownSet_self _ _ _
  · intro k kd hk
    exact ownGet_append_some _ _ _ _ hk

/-- Witness of the amended C10: carol asks for a key while alice holds one. -/
theorem postFreeKey_success_witness :
    postFreeKey ⟨[], [("k1", ⟨"alice", 2592001000, false⟩)]⟩ 5000 "k2" (some "carol")
      = (⟨200, Body.issued "k2" 2592005000 "1-month"⟩,
          ⟨[], [("k1", ⟨"alice", 2592001000, false⟩), ("k2", ⟨"carol", 2592005000, false⟩)]⟩) :=
  (postFreeKey_success ⟨[], [("k1", ⟨"alice", 2592001000, false⟩)]⟩ 5000 "k2" "carol"
    (by decide) (by decide) (by decide)).2.1

/-! ## Script creation (`POST /api/scripts`) -/

/-- C11: when the code is missing or empty, or the key is missing or empty, the
handler answers 400 "Code and API key are required." (not the 401 of an
unknown or expired key), draws no identifier and leaves both stores as they
were. -/
theorem postScripts_missing_fields (st : State) (now : Nat) (scriptId : String)
    (code : Option String) (isPaid : Bool) (key : Option String)
    (h : code = none ∨ code = some "" ∨ key = none ∨ key = some "") :
    postScripts st now scriptId code isPaid key
      = (⟨400, Body.error "Code and API key are required."⟩, st) := by
  rcases h with h | h | h | h
  · subst h
    simp [postScripts]
  · subst h
    cases key <;> simp [postScripts]
  · subst h
    cases code <;> simp [postScripts]
  · subst h
    cases code <;> simp [postScripts]

/-- Witness of C11: empty code together with a key that is not stored. -/
theorem postScripts_missing_fields_witness :
    postScripts (run emptyState scenario).2 5000 "s2" (some "") true (some "nokey")
      = (⟨400, Body.error "Code and API key are required."⟩, (run emptyState scenario).2) :=
  postScripts_missing_fields (run emptyState scenario).2 5000 "s2" (some "") true
    (some "nokey") (Or.inr (Or.inl rfl))

/-- C12, the claim refuted: in the scenario alice creates a second script with
her valid key and `uuidv4()` returns "s1", the identifier of her first script.
The handler answers 200 with an identifier that was in the script store
before; the store afterwards is not the old one plus one entry, and the first
script, with its blacklist, is replaced. -/
theorem postScripts_collision_counterexample :
    ownGet (run emptyState scenario).2.scripts "s1"
        = some ⟨"s1", "k1", some "alice", "print(1)", true, [], [some "bob"], 0⟩ ∧
      postScripts (run emptyState scenario).2 5000 "s1" (some "print(2)") false (some "k1")
        = (⟨200, Body.created "s1" "k1"⟩,
            ⟨[("s1", ⟨"s1", "k1", some "alice", "print(2)", false, [], [], 0⟩)],
              (run emptyState scenario).2.keys⟩) ∧
      (postScripts (run emptyState scenario).2 5000 "s1" (some "print(2)") false
          (some "k1")).2.scripts
        ≠ (run emptyState scenario).2.scripts
            ++ [("s1", ⟨"s1", "k1", some "alice", "print(2)", false, [], [], 0⟩)] ∧
      ownGet (postScripts (run emptyState scenario).2 5000 "s1" (some "print(2)") false
          (some "k1")).2.scripts "s1"
        ≠ some ⟨"s1", "k1", some "alice", "print(1)", true, [], [some "bob"], 0⟩ := by
  decide

/-- C12 as amended: for non-empty code and a stored, unexpired key `K` (whose
identifier, drawn from `uuidv4()`, is not the empty string), when the script
identifier `uuidv4()` returns is not yet in the script store (the handler
itself does not test it), the handler answers with the identifier and `K`; the script store afterwards is the old one followed by
the new script, which carries that code, that flag, the key `K`, the userId of
`K`, empty lists and a zero counter; every script stored before is still
stored, unchanged, and the key store is not touched. -/
theorem postScripts_success (st : State) (now : Nat) (scriptId code : String) (isPaid : Bool)
    (K : String) (kd : KeyData) (hc : code ≠ "") (hK : K ≠ "")
    (hk : ownGet st.keys K = some kd) (hexp : now ≤ kd.expiresAt)
    (hfresh : ownGet st.scripts scriptId = none) :
    postScripts st now scriptId (some code) isPaid (some K)
        = (⟨200, Body.created scriptId K⟩,
            ⟨st.scripts ++ [(scriptId, ⟨scriptId, K, some kd.userId, code, isPaid, [], [], 0⟩)],
              st.keys⟩) ∧
      ownGet (st.scripts ++ [(scriptId, ⟨scriptId, K, some kd.userId, code, isPaid, [], [], 0⟩)])
          scriptId
        = some ⟨scriptId, K, some kd.userId, code, isPaid, [], [], 0⟩ ∧
      (∀ id s, ownGet st.scripts id = some s →
        ownGet (st.scripts ++
            [(scriptId, ⟨scriptId, K, some kd.userId, code, isPaid, [], [], 0⟩)]) id
          = some s) := by
  have hset := ownSet_fresh st.scripts scriptId
    ⟨scriptId, K, some kd.userId, code, isPaid, [], [], 0⟩ hfresh
  refine ⟨?_, ?_, ?_⟩
  · simp [postScripts, hc, hK, jsGet, hk, Ref.truthy, keyExpiresAt, dateGt, hexp, keyUserId,
      hset]
  · rw [← hset]
    exact ownGet_ownSet_self _ _ _
  · intro id s hs
    exact ownGet_append_some _ _ _ _ hs

/-- Witness of the amended C12: alice creates a second, free script in the
scenario. -/
theorem postScripts_success_witness :
    postScripts (run emptyState scenario).2 5000 "s2" (some "print(2)") false (some "k1")
      = (⟨200, Body.created "s2" "k1"⟩,
          ⟨(run emptyState scenario).2.scripts
              ++ [("s2", ⟨"s2", "k1", some "alice", "print(2)", false, [], [], 0⟩)],
            (run emptyState scenario).2.keys⟩) :=
  (postScripts_success (run emptyState scenario).2 5000 "s2" "print(2)" false "k1"
    ⟨"alice", 1000 + plans1Month, false⟩ (by decide) (by decide) (by decide) (by decide)
    (by decide)).1

/-! ## Shape of one step -/

theorem jsGet_eq_own {α : Type} (o : List (String × α)) (name : String) (a : α) :
    jsGet o name = Ref.own a ↔ ownGet o name = some a := by
  unfold jsGet
  cases h : ownGet o name with
  | none => by_cases hp : name ∈ objectPrototypeNames <;> simp [hp]
  | some b => simp

theorem jsGet_truthy_of_own {α : Type} (o : List (String × α)) (name : String) (a : α)
    (h : ownGet o name = some a) : (jsGet o name).truthy = true := by
  simp [jsGet, h, Ref.truthy]

theorem ownGet_mem {α : Type} (o : List (String × α)) (name : String) (v : α)
    (h : ownGet o name = some v) : (name, v) ∈ o := by
  induction o with
  | nil => simp [ownGet] at h
  | cons e rest ih =>
    obtain ⟨k, x⟩ := e
    by_cases hk : k = name
    · simp [ownGet, hk] at h
      simp [hk, h]
    · simp [ownGet, hk] at h
      exact List.mem_cons_of_mem _ (ih h)

theorem mem_ownSet {α : Type} (o : List (String × α)) (name : String) (v : α)
    (e : String × α) (h : e ∈ ownSet o name v) : e = (name, v) ∨ e ∈ o := by
  induction o with
  | nil => simpa [ownSet] using h
  | cons d rest ih =>
    obtain ⟨k, x⟩ := d
    by_cases hk : k = name
    · simp [ownSet, hk] at h
      rcases h with h | h
      · exact Or.inl h
      · exact Or.inr (List.mem_cons_of_mem _ h)
    · simp [ownSet, hk] at h
      rcases h with h | h
      · exact Or.inr (by simp [h])
      · rcases ih h with h2 | h2
        · exact Or.inl h2
        · exact Or.inr (List.mem_cons_of_mem _ h2)

theorem mem_ownDelete {α : Type} (o : List (String × α)) (name : String)
    (e : String × α) (h : e ∈ ownDelete o name) : e ∈ o :=
  (List.mem_filter.mp h).1

theorem ownGet_ownDelete_some {α : Type} (o : List (String × α)) (name other : String)
    (v : α) (h : ownGet (ownDelete o name) other = some v) : ownGet o other = some v := by
  by_cases hk : other = name
  · subst hk
    rw [ownGet_ownDelete_self] at h
    cases h
  · rwa [ownGet_ownDelete_ne o name other hk] at h

theorem ownGet_ownSet_some {α : Type} (o : List (String × α)) (name other : String)
    (v w : α) (h : ownGet (ownSet o name v) other = some w) :
    (other = name ∧ w = v) ∨ (other ≠ name ∧ ownGet o other = some w) := by
  by_cases hk : name = other
  · subst hk
    rw [ownGet_ownSet_self] at h
    cases h
    exact Or.inl ⟨rfl, rfl⟩
  · rw [ownGet_ownSet_ne o name other v hk] at h
    exact Or.inr ⟨fun hc => hk hc.symm, h⟩

/-- The key store after one request: untouched, or one key written by a
successful free-key request, or one name deleted by a key check. -/
theorem handle_keys_shape (st : State) (now : Nat) (r : Request) :
    (handle st now r).2.keys = st.keys ∨
      (∃ newKey u, r = Request.freeKey newKey (some u) ∧ u ≠ "" ∧
        (∀ e ∈ st.keys, e.2.userId ≠ u) ∧
        (handle st now r).2.keys = ownSet st.keys newKey ⟨u, now + plans1Month, false⟩) ∨
      (∃ key, r = Request.checkKey key ∧
        (handle st now r).2.keys = ownDelete st.keys (propKey key)) := by
  cases r with
  | freeKey newKey userId =>
    cases userId with
    | none => exact Or.inl rfl
    | some u =>
      by_cases hu : u = ""
      · left
        simp [handle, postFreeKey, hu]
      · by_cases hany : (st.keys.any (fun e => decide (e.2.userId = u))) = true
        · left
          simp only [handle, postFreeKey, hu, hany, if_true, if_false]
        · right
          left
          refine ⟨newKey, u, rfl, hu, ?_, ?_⟩
          · intro e he hc
            apply hany
            rw [List.any_eq_true]
            exact ⟨e, he, by simpa using hc⟩
          · simp only [handle, postFreeKey, hu, hany, if_false]
            rfl
  | checkKey key =>
    simp only [handle, postCheckKey]
    split
    · exact Or.inr (Or.inr ⟨key, rfl, rfl⟩)
    · exact Or.inl rfl
  | createScript scriptId code isPaid key => exact Or.inl (postScripts_keys _ _ _ _ _ _)
  | listScripts => exact Or.inl rfl
  | deleteScript id => exact Or.inl (deleteScript_keys _ _)
  | getLists id => exact Or.inl (getUsers_keys _ _)
  | addToList id listType userId => exact Or.inl (postUsers_keys _ _ _ _)
  | removeFromList id listType userId => exact Or.inl (deleteUsers_keys _ _ _ _)
  | raw id key userId => exact Or.inl (getRaw_keys _ _ _ _ _)

/-- The four ways `GET /raw/:id` answers for a stored script; the last one,
the served access, carries the facts its guards established. -/
theorem getRaw_cases (st : State) (now : Nat) (id : String) (key userId : Option String)
    (S : Script) (hS : ownGet st.scripts id = some S) :
    getRaw st now id key userId = (unauthorized, st) ∨
      getRaw st now id key userId = (kickBlacklisted, st) ∨
      getRaw st now id key userId = (kickNotWhitelisted, st) ∨
      (getRaw st now id key userId = (⟨200, Body.text S.code⟩, served st id S) ∧
        key = some S.key ∧ (jsGet st.keys S.key).truthy = true ∧
        keyUserId (jsGet st.keys S.key) = userId ∧
        dateGt now (keyExpiresAt (jsGet st.keys S.key)) = false ∧
        (S.isPaid = true → S.blacklist.contains userId = false ∧
          (S.whitelist = [] ∨ S.whitelist.contains userId = true))) := by
  have hj : jsGet st.scripts id = Ref.own S := (jsGet_eq_own _ _ _).mpr hS
  unfold getRaw
  simp only [hj]
  split
  · exact Or.inl rfl
  · rename_i hg
    simp only [Bool.or_eq_true, not_or, Bool.not_eq_true, Ref.truthy, scriptKey,
      Bool.not_eq_true', decide_eq_false_iff_not, not_not, decide_eq_true_eq] at hg
    obtain ⟨⟨⟨⟨-, hkey⟩, htr⟩, huid⟩, hexp⟩ := hg
    subst hkey
    simp only [propKey] at htr huid hexp
    split
    · exact Or.inr (Or.inl rfl)
    · rename_i hb
      split
      · exact Or.inr (Or.inr (Or.inl rfl))
      · rename_i hw
        refine Or.inr (Or.inr (Or.inr ⟨rfl, rfl, ?_, huid, hexp, ?_⟩))
        · simpa using htr
        · intro hp
          simp only [hp, Bool.true_and, Bool.not_eq_true] at hb hw
          refine ⟨hb, ?_⟩
          cases hl : S.whitelist with
          | nil => exact Or.inl rfl
          | cons a l =>
            right
            cases hc : (a :: l).contains userId with
            | true => rfl
            | false =>
              rw [hl, hc] at hw
              simp at hw

/-- Without a stored script under the id, `GET /raw/:id` changes no store. -/
theorem getRaw_not_stored (st : State) (now : Nat) (id : String) (key userId : Option String)
    (h : ownGet st.scripts id = none) : (getRaw st now id key userId).2 = st := by
  unfold getRaw
  cases hj : jsGet st.scripts id with
  | own s =>
    have hs := (jsGet_eq_own _ _ _).mp hj
    rw [h] at hs
    cases hs
  | undefined => simp [Ref.truthy]
  | inherited =>
    simp only []
    split <;> rfl

/-- The list handler of `POST` changes nothing or makes one list edit on the
stored script. -/
theorem postUsers_shape (st : State) (id listType : String) (u : Option String) :
    (postUsers st id listType u).2 = st ∨
      ∃ s s2, ownGet st.scripts id = some s ∧ ListEdit s s2 ∧
        (postUsers st id listType u).2 = withScript st id s2 := by
  unfold postUsers
  cases hj : jsGet st.scripts id with
  | undefined => simp [Ref.truthy]
  | inherited =>
    simp only []
    split <;> exact Or.inl rfl
  | own s =>
    have hs := (jsGet_eq_own _ _ _).mp hj
    by_cases hw : listType = "whitelist"
    · subst hw
      by_cases hc : u ∈ s.whitelist
      · left
        simp [Ref.truthy, hc]
      · right
        refine ⟨s, _, hs, ListEdit.addWhitelist u (by simpa using hc), ?_⟩
        simp [Ref.truthy, hc, withScript]
    · by_cases hb : listType = "blacklist"
      · subst hb
        by_cases hc : u ∈ s.blacklist
        · left
          simp [Ref.truthy, hc]
        · right
          refine ⟨s, _, hs, ListEdit.addBlacklist u (by simpa using hc), ?_⟩
          simp [Ref.truthy, hc, withScript]
      · left
        simp [Ref.truthy, hw, hb]

/-- The list handler of `DELETE` changes nothing or makes one list edit on the
stored script. -/
theorem deleteUsers_shape (st : State) (id listType : String) (u : Option String) :
    (deleteUsers st id listType u).2 = st ∨
      ∃ s s2, ownGet st.scripts id = some s ∧ ListEdit s s2 ∧
        (deleteUsers st id listType u).2 = withScript st id s2 := by
  unfold deleteUsers
  cases hj : jsGet st.scripts id with
  | undefined => simp [Ref.truthy]
  | inherited =>
    simp only []
    split <;> exact Or.inl rfl
  | own s =>
    have hs := (jsGet_eq_own _ _ _).mp hj
    by_cases hw : listType = "whitelist"
    · subst hw
      by_cases hc : u ∈ s.whitelist
      · right
        refine ⟨s, _, hs, ListEdit.removeWhitelist u (by simpa using hc), ?_⟩
        simp [Ref.truthy, hc, withScript]
      · left
        simp [Ref.truthy, hc]
    · by_cases hb : listType = "blacklist"
      · subst hb
        by_cases hc : u ∈ s.blacklist
        · right
          refine ⟨s, _, hs, ListEdit.removeBlacklist u (by simpa using hc), ?_⟩
          simp [Ref.truthy, hc, withScript]
        · left
          simp [Ref.truthy, hc]
      · left
        simp [Ref.truthy, hw, hb]

/-- The script store after one request: untouched, or one script written by a
successful creation, or one name deleted, or one list edit on a stored script,
or the counter increment of a served access. -/
theorem handle_scripts_shape (st : State) (now : Nat) (r : Request) :
    (handle st now r).2.scripts = st.scripts ∨
      (∃ scriptId c p k, r = Request.createScript scriptId (some c) p (some k) ∧
        (jsGet st.keys k).truthy = true ∧
        (handle st now r).2.scripts
          = ownSet st.scripts scriptId
              ⟨scriptId, k, keyUserId (jsGet st.keys k), c, p, [], [], 0⟩) ∨
      (∃ id, r = Request.deleteScript id ∧
        (handle st now r).2.scripts = ownDelete st.scripts id) ∨
      (∃ id listType u s s2,
        (r = Request.addToList id listType u ∨ r = Request.removeFromList id listType u) ∧
        ownGet st.scripts id = some s ∧ ListEdit s s2 ∧
        (handle st now r).2.scripts = ownSet st.scripts id s2) ∨
      (∃ id key userId s, r = Request.raw id key userId ∧ ownGet st.scripts id = some s ∧
        handle st now r = (⟨200, Body.text s.code⟩, served st id s)) := by
  cases r with
  | freeKey newKey userId =>
    left
    simp only [handle, postFreeKey]
    repeat' split
    all_goals rfl
  | checkKey key =>
    left
    simp only [handle, postCheckKey]
    repeat' split
    all_goals rfl
  | createScript scriptId code isPaid key =>
    cases code with
    | none => exact Or.inl (by simp [handle, postScripts])
    | some c =>
      cases key with
      | none => exact Or.inl (by simp [handle, postScripts])
      | some k =>
        by_cases h1 : c = "" ∨ k = ""
        · exact Or.inl (by simp [handle, postScripts, h1])
        · by_cases h2 : (!(jsGet st.keys k).truthy
              || dateGt now (keyExpiresAt (jsGet st.keys k))) = true
          · exact Or.inl (by simp only [handle, postScripts, h1, h2, if_true, if_false])
          · right
            left
            refine ⟨scriptId, c, isPaid, k, rfl, ?_, ?_⟩
            · simp only [Bool.or_eq_true, not_or, Bool.not_eq_true, Bool.not_eq_false'] at h2
              simpa using h2.1
            · simp only [handle, postScripts, h1, h2, if_false]
              rfl
  | listScripts => exact Or.inl rfl
  | deleteScript id =>
    simp only [handle, deleteScript]
    split
    · exact Or.inr (Or.inr (Or.inl ⟨id, rfl, rfl⟩))
    · exact Or.inl rfl
  | getLists id =>
    left
    simp only [handle, getUsers]
    repeat' split
    all_goals rfl
  | addToList id listType userId =>
    rcases postUsers_shape st id listType userId with h | ⟨s, s2, hs, he, h⟩
    · exact Or.inl (by simp [handle, h])
    · exact Or.inr (Or.inr (Or.inr (Or.inl ⟨id, listType, userId, s, s2, Or.inl rfl, hs, he,
        by simp [handle, h, withScript]⟩)))
  | removeFromList id listType userId =>
    rcases deleteUsers_shape st id listType userId with h | ⟨s, s2, hs, he, h⟩
    · exact Or.inl (by simp [handle, h])
    · exact Or.inr (Or.inr (Or.inr (Or.inl ⟨id, listType, userId, s, s2, Or.inr rfl, hs, he,
        by simp [handle, h, withScript]⟩)))
  | raw id key userId =>
    cases hS : ownGet st.scripts id with
    | none => exact Or.inl (by simp [handle, getRaw_not_stored st now id key userId hS])
    | some S =>
      rcases getRaw_cases st now id key userId S hS with h | h | h | ⟨h, -⟩
      · exact Or.inl (by simp [handle, h])
      · exact Or.inl (by simp [handle, h])
      · exact Or.inl (by simp [handle, h])
      · exact Or.inr (Or.inr (Or.inr (Or.inr ⟨id, key, userId, S, rfl, hS, by simp [handle, h]⟩)))

/-! ## Invariants of the reachable states -/

/-- A property kept by every request holds after any sequence of requests. -/
theorem run_invariant (P : State → Prop)
    (hstep : ∀ st now r, P st → P (handle st now r).2)
    (reqs : List (Nat × Request)) (st : State) (h : P st) : P (run st reqs).2 := by
  induction reqs generalizing st with
  | nil => simpa [run] using h
  | cons tr rest ih =>
    obtain ⟨now, r⟩ := tr
    simp only [run]
    exact ih _ (hstep st now r h)

theorem ListEdit_nodup (s s2 : Script) (he : ListEdit s s2)
    (h : s.whitelist.Nodup ∧ s.blacklist.Nodup) : s2.whitelist.Nodup ∧ s2.blacklist.Nodup := by
  cases he with
  | addWhitelist u hu =>
    refine ⟨?_, h.2⟩
    have hm : u ∉ s.whitelist := by simpa using hu
    simp only
    rw [List.nodup_append]
    refine ⟨h.1, List.nodup_singleton u, ?_⟩
    intro a ha hb
    rw [List.mem_singleton] at hb
    exact hm (hb ▸ ha)
  | addBlacklist u hu =>
    refine ⟨h.1, ?_⟩
    have hm : u ∉ s.blacklist := by simpa using hu
    simp only
    rw [List.nodup_append]
    refine ⟨h.2, List.nodup_singleton u, ?_⟩
    intro a ha hb
    rw [List.mem_singleton] at hb
    exact hm (hb ▸ ha)
  | removeWhitelist u hu => exact ⟨h.1.erase u, h.2⟩
  | removeBlacklist u hu => exact ⟨h.1, h.2.erase u⟩

/-- Both lists of every stored script are duplicate-free after any sequence of
requests from the empty stores. -/
theorem reachable_lists_nodup (reqs : List (Nat × Request)) :
    ∀ e ∈ (run emptyState reqs).2.scripts, e.2.whitelist.Nodup ∧ e.2.blacklist.Nodup := by
  apply run_invariant
    (fun st => ∀ e ∈ st.scripts, e.2.whitelist.Nodup ∧ e.2.blacklist.Nodup)
  · intro st now r hP e he
    rcases handle_scripts_shape st now r with h | ⟨scriptId, c, p, k, -, -, h⟩ | ⟨id, -, h⟩ |
      ⟨id, lt, u, s, s2, -, hs, hedit, h⟩ | ⟨id, key, userId, s, -, hs, h⟩
    · rw [h] at he
      exact hP e he
    · rw [h] at he
      rcases mem_ownSet _ _ _ _ he with h2 | h2
      · subst h2
        exact ⟨List.nodup_nil, List.nodup_nil⟩
      · exact hP e h2
    · rw [h] at he
      exact hP e (mem_ownDelete _ _ _ he)
    · rw [h] at he
      rcases mem_ownSet _ _ _ _ he with h2 | h2
      · subst h2
        exact ListEdit_nodup s s2 hedit (hP _ (ownGet_mem _ _ _ hs))
      · exact hP e h2
    · rw [h] at he
      rcases mem_ownSet _ _ _ _ he with h2 | h2
      · subst h2
        exact hP (id, s) (ownGet_mem _ _ _ hs)
      · exact hP e h2
  · intro e he
    simp [emptyState] at he

theorem ownSet_map_nodup {α β : Type} (f : α → β) (o : List (String × α)) (name : String)
    (v : α) (hn : (o.map (fun e => f e.2)).Nodup) (hv : ∀ e ∈ o, f e.2 ≠ f v) :
    ((ownSet o name v).map (fun e => f e.2)).Nodup := by
  induction o with
  | nil => simp [ownSet]
  | cons d rest ih =>
    obtain ⟨k, x⟩ := d
    simp only [List.map_cons, List.nodup_cons] at hn
    have hrest : ∀ e ∈ rest, f e.2 ≠ f v := fun e he => hv e (List.mem_cons_of_mem _ he)
    by_cases hk : k = name
    · simp only [ownSet, hk, if_true, List.map_cons, List.nodup_cons]
      refine ⟨?_, hn.2⟩
      intro hmem
      rw [List.mem_map] at hmem
      obtain ⟨e, he, heq⟩ := hmem
      exact hrest e he heq
    · simp only [ownSet, hk, if_false, List.map_cons, List.nodup_cons]
      refine ⟨?_, ih hn.2 hrest⟩
      intro hmem
      rw [List.mem_map] at hmem
      obtain ⟨e, he, heq⟩ := hmem
      rcases mem_ownSet _ _ _ _ he with h2 | h2
      · subst h2
        exact hv (k, x) (List.mem_cons_self _ _) heq.symm
      · exact hn.1 (List.mem_map.mpr ⟨e, h2, heq⟩)

/-- The userIds of the stored keys are pairwise distinct after any sequence of
requests from the empty stores. -/
theorem reachable_userIds_nodup (reqs : List (Nat × Request)) :
    ((run emptyState reqs).2.keys.map (fun e => e.2.userId)).Nodup := by
  apply run_invariant (fun st => (st.keys.map (fun e => e.2.userId)).Nodup)
  · intro st now r hP
    rcases handle_keys_shape st now r with h | ⟨newKey, u, -, -, hfree, h⟩ | ⟨key, -, h⟩
    · rw [h]
      exact hP
    · rw [h]
      exact ownSet_map_nodup KeyData.userId st.keys newKey _ hP hfree
    · rw [h]
      exact hP.sublist ((List.filter_sublist _).map _)
  · simp [emptyState]

/-- No stored key is paid after any sequence of requests from the empty
stores. -/
theorem reachable_keys_free (reqs : List (Nat × Request)) :
    ∀ e ∈ (run emptyState reqs).2.keys, e.2.isPaid = false := by
  apply run_invariant (fun st => ∀ e ∈ st.keys, e.2.isPaid = false)
  · intro st now r hP e he
    rcases handle_keys_shape st now r with h | ⟨newKey, u, -, -, -, h⟩ | ⟨key, -, h⟩
    · rw [h] at he
      exact hP e he
    · rw [h] at he
      rcases mem_ownSet _ _ _ _ he with h2 | h2
      · subst h2
        rfl
      · exact hP e h2
    · rw [h] at he
      exact hP e (mem_ownDelete _ _ _ he)
  · intro e he
    simp [emptyState] at he

/-! ## List edits (`POST` and `DELETE /api/users/:id/:listType`) -/

theorem postUsers_eval (st : State) (id kind : String) (u : Option String) (S : Script)
    (hS : ownGet st.scripts id = some S) (hk : kind = "whitelist" ∨ kind = "blacklist") :
    postUsers st id kind u
      = (⟨200, Body.text ("User added to " ++ kind ++ ".")⟩,
          if u ∈ listOf S kind then st
          else withScript st id (withList S kind (listOf S kind ++ [u]))) := by
  have hj : jsGet st.scripts id = Ref.own S := (jsGet_eq_own _ _ _).mpr hS
  rcases hk with rfl | rfl
  · have hstr : "User added to " ++ "whitelist" ++ "." = "User added to whitelist." := by
      decide
    rw [hstr]
    by_cases hm : u ∈ S.whitelist <;>
      simp [postUsers, hj, Ref.truthy, listOf, withList, withScript, hm]
  · have hstr : "User added to " ++ "blacklist" ++ "." = "User added to blacklist." := by
      decide
    rw [hstr]
    by_cases hm : u ∈ S.blacklist <;>
      simp [postUsers, hj, Ref.truthy, listOf, withList, withScript, hm]

theorem deleteUsers_eval (st : State) (id kind : String) (u : Option String) (S : Script)
    (hS : ownGet st.scripts id = some S) (hk : kind = "whitelist" ∨ kind = "blacklist") :
    deleteUsers st id kind u
      = (⟨200, Body.text ("User removed from " ++ kind ++ ".")⟩,
          if u ∈ listOf S kind then
            withScript st id (withList S kind ((listOf S kind).erase u))
          else st) := by
  have hj : jsGet st.scripts id = Ref.own S := (jsGet_eq_own _ _ _).mpr hS
  rcases hk with rfl | rfl
  · have hstr : "User removed from " ++ "whitelist" ++ "."
        = "User removed from whitelist." := by decide
    rw [hstr]
    by_cases hm : u ∈ S.whitelist <;>
      simp [deleteUsers, hj, Ref.truthy, listOf, withList, withScript, hm]
  · have hstr : "User removed from " ++ "blacklist" ++ "."
        = "User removed from blacklist." := by decide
    rw [hstr]
    by_cases hm : u ∈ S.blacklist <;>
      simp [deleteUsers, hj, Ref.truthy, listOf, withList, withScript, hm]

theorem count_of_nodup_mem {α : Type} [BEq α] [LawfulBEq α] (l : List α) (a : α)
    (hn : l.Nodup) (hm : a ∈ l) : l.count a = 1 := by
  induction l with
  | nil => cases hm
  | cons b rest ih =>
    rw [List.nodup_cons] at hn
    rw [List.count_cons]
    by_cases hb : b = a
    · subst hb
      simp [List.count_eq_zero_of_not_mem hn.1]
    · have hr : a ∈ rest := by
        rcases List.mem_cons.mp hm with h | h
        · exact absurd h.symm hb
        · exact h
      simp [ih hn.2 hr, hb]

theorem listOf_withList (S : Script) (kind : String) (l : List (Option String)) :
    listOf (withList S kind l) kind = l := by
  by_cases hk : kind = "whitelist" <;> simp [listOf, withList, hk]

theorem ownGet_withScript (st : State) (id : String) (S : Script) :
    ownGet (withScript st id S).scripts id = some S :=
  ownGet_ownSet_self _ _ _

/-- C14: adding a userId to the whitelist or the blacklist of a stored script
answers 200; when the list already holds the userId the stores are unchanged,
otherwise the userId is appended to that list of the script; a second
identical request answers the same and leaves the state of the first; and on
a duplicate-free list the userId occurs exactly once afterwards. -/
theorem postUsers_idempotent (st : State) (id kind : String) (u : Option String) (S : Script)
    (hS : ownGet st.scripts id = some S) (hk : kind = "whitelist" ∨ kind = "blacklist") :
    (postUsers st id kind u).1 = ⟨200, Body.text ("User added to " ++ kind ++ ".")⟩ ∧
      (u ∈ listOf S kind → (postUsers st id kind u).2 = st) ∧
      (u ∉ listOf S kind →
        (postUsers st id kind u).2
          = withScript st id (withList S kind (listOf S kind ++ [u]))) ∧
      postUsers (postUsers st id kind u).2 id kind u
        = ((postUsers st id kind u).1, (postUsers st id kind u).2) ∧
      ((listOf S kind).Nodup →
        ∃ S2, ownGet (postUsers st id kind u).2.scripts id = some S2 ∧
          (listOf S2 kind).count u = 1 ∧ (listOf S2 kind).Nodup) := by
  have hev := postUsers_eval st id kind u S hS hk
  by_cases hm : u ∈ listOf S kind
  · have h1 : postUsers st id kind u
        = (⟨200, Body.text ("User added to " ++ kind ++ ".")⟩, st) := by
      rw [hev, if_pos hm]
    refine ⟨by rw [h1], fun _ => by rw [h1], fun hn => absurd hm hn, ?_, ?_⟩
    · rw [h1]
      exact h1
    · intro hnd
      rw [h1]
      exact ⟨S, hS, count_of_nodup_mem _ _ hnd hm, hnd⟩
  · have h1 : postUsers st id kind u
        = (⟨200, Body.text ("User added to " ++ kind ++ ".")⟩,
            withScript st id (withList S kind (listOf S kind ++ [u]))) := by
      rw [hev, if_neg hm]
    have hS2 := ownGet_withScript st id (withList S kind (listOf S kind ++ [u]))
    have hmem2 : u ∈ listOf (withList S kind (listOf S kind ++ [u])) kind := by
      rw [listOf_withList]
      simp
    refine ⟨by rw [h1], fun hn => absurd hn hm, fun _ => by rw [h1], ?_, ?_⟩
    · rw [h1]
      rw [postUsers_eval _ id kind u _ hS2 hk, if_pos hmem2]
    · intro hnd
      rw [h1]
      refine ⟨_, hS2, ?_, ?_⟩
      · rw [listOf_withList, List.count_append, List.count_eq_zero_of_not_mem hm]
        simp
      · rw [listOf_withList, List.nodup_append]
        refine ⟨hnd, List.nodup_singleton u, ?_⟩
        intro a ha hb
        rw [List.mem_singleton] at hb
        exact hm (hb ▸ ha)

/-- Witness of C14 on the scenario: bob, already on the blacklist of the script
of alice, is added to it a second time. -/
theorem postUsers_idempotent_witness :
    postUsers (run emptyState scenario).2 "s1" "blacklist" (some "bob")
      = (⟨200, Body.text "User added to blacklist."⟩, (run emptyState scenario).2) :=
  (postUsers_idempotent (run emptyState scenario).2 "s1" "blacklist" (some "bob")
    ⟨"s1", "k1", some "alice", "print(1)", true, [], [some "bob"], 0⟩ (by decide)
    (Or.inr rfl)).2.2.2.1

/-- C15: in a state reached from the empty stores, removing a userId from the
whitelist or the blacklist of a stored script answers 200; when the list does
not hold the userId the stores are unchanged; otherwise the list of the script
becomes the old list without that userId, the other members in their order;
and a second identical request answers the same and leaves the state of the
first. -/
theorem deleteUsers_postcondition (reqs : List (Nat × Request)) (id kind : String)
    (u : Option String) (S : Script)
    (hS : ownGet (run emptyState reqs).2.scripts id = some S)
    (hk : kind = "whitelist" ∨ kind = "blacklist") :
    (deleteUsers (run emptyState reqs).2 id kind u).1
        = ⟨200, Body.text ("User removed from " ++ kind ++ ".")⟩ ∧
      (u ∉ listOf S kind →
        (deleteUsers (run emptyState reqs).2 id kind u).2 = (run emptyState reqs).2) ∧
      (u ∈ listOf S kind →
        (deleteUsers (run emptyState reqs).2 id kind u).2
            = withScript (run emptyState reqs).2 id
                (withList S kind ((listOf S kind).erase u)) ∧
          u ∉ (listOf S kind).erase u ∧
          (listOf S kind).erase u = (listOf S kind).filter (fun x => x != u)) ∧
      deleteUsers (deleteUsers (run emptyState reqs).2 id kind u).2 id kind u
        = ((deleteUsers (run emptyState reqs).2 id kind u).1,
            (deleteUsers (run emptyState reqs).2 id kind u).2) := by
  have hev := deleteUsers_eval (run emptyState reqs).2 id kind u S hS hk
  have hnd : (listOf S kind).Nodup := by
    have h := reachable_lists_nodup reqs (id, S) (ownGet_mem _ _ _ hS)
    rcases hk with rfl | rfl
    · simpa [listOf] using h.1
    · simpa [listOf] using h.2
  by_cases hm : u ∈ listOf S kind
  · have h1 : deleteUsers (run emptyState reqs).2 id kind u
        = (⟨200, Body.text ("User removed from " ++ kind ++ ".")⟩,
            withScript (run emptyState reqs).2 id
              (withList S kind ((listOf S kind).erase u))) := by
      rw [hev, if_pos hm]
    have hS2 := ownGet_withScript (run emptyState reqs).2 id
      (withList S kind ((listOf S kind).erase u))
    have hgone : u ∉ listOf (withList S kind ((listOf S kind).erase u)) kind := by
      rw [listOf_withList]
      exact hnd.not_mem_erase
    refine ⟨by rw [h1], fun hn => absurd hm hn, fun _ => ⟨by rw [h1], hnd.not_mem_erase,
      hnd.erase_eq_filter u⟩, ?_⟩
    rw [h1]
    rw [deleteUsers_eval _ id kind u _ hS2 hk, if_neg hgone]
  · have h1 : deleteUsers (run emptyState reqs).2 id kind u
        = (⟨200, Body.text ("User removed from " ++ kind ++ ".")⟩,
            (run emptyState reqs).2) := by
      rw [hev, if_neg hm]
    refine ⟨by rw [h1], fun _ => by rw [h1], fun hn => absurd hn hm, ?_⟩
    rw [h1]
    exact h1

/-- Witness of C15 on the scenario: bob is removed from the blacklist of the
script of alice, which becomes empty. -/
theorem deleteUsers_postcondition_witness :
    (deleteUsers (run emptyState scenario).2 "s1" "blacklist" (some "bob")).2
      = withScript (run emptyState scenario).2 "s1"
          ⟨"s1", "k1", some "alice", "print(1)", true, [], [], 0⟩ :=
  ((deleteUsers_postcondition scenario "s1" "blacklist" (some "bob")
    ⟨"s1", "k1", some "alice", "print(1)", true, [], [some "bob"], 0⟩ (by decide)
    (Or.inr rfl)).2.2.1 (by decide)).1

/-! ## Execution counter -/

theorem getRaw_of_rawAllows (st : State) (now : Nat) (id : String) (key userId : Option String)
    (S : Script) (hS : ownGet st.scripts id = some S)
    (h : rawAllows st now id key userId = true) :
    getRaw st now id key userId = (⟨200, Body.text S.code⟩, served st id S) := by
  have hj : jsGet st.scripts id = Ref.own S := (jsGet_eq_own _ _ _).mpr hS
  simp only [rawAllows, hj, Bool.and_eq_true, Bool.not_eq_true', Bool.or_eq_false_iff] at h
  obtain ⟨⟨⟨⟨⟨h1, h2⟩, h3⟩, h4⟩, h5⟩, h6⟩ := h
  have h1b : (decide (scriptKey (Ref.own S) ≠ key)) = false := by simpa [scriptKey] using h1
  have ht : (Ref.own S : Ref Script).truthy = true := rfl
  simp only [getRaw, hj, ht, h1b, h2, h3, h4, h5, h6, served, Bool.not_true,
    Bool.or_false, Bool.false_eq_true, if_false]

theorem getRaw_of_not_rawAllows (st : State) (now : Nat) (id : String)
    (key userId : Option String) (S : Script) (hS : ownGet st.scripts id = some S)
    (h : rawAllows st now id key userId = false) :
    getRaw st now id key userId = (unauthorized, st) ∨
      getRaw st now id key userId = (kickBlacklisted, st) ∨
      getRaw st now id key userId = (kickNotWhitelisted, st) := by
  rcases getRaw_cases st now id key userId S hS with h1 | h1 | h1 | ⟨-, hk, htr, hu, hd, hl⟩
  · exact Or.inl h1
  · exact Or.inr (Or.inl h1)
  · exact Or.inr (Or.inr h1)
  · exfalso
    have hj : jsGet st.scripts id = Ref.own S := (jsGet_eq_own _ _ _).mpr hS
    subst hk
    cases hp : S.isPaid with
    | false =>
      simp [rawAllows, hj, propKey, htr, hu, hd, hp] at h
    | true =>
      obtain ⟨hb, hw⟩ := hl hp
      rcases hw with hw | hw
      · simp [rawAllows, hj, propKey, htr, hu, hd, hp, hb, hw] at h
        exact absurd h (by simpa using hb)
      · simp [rawAllows, hj, propKey, htr, hu, hd, hp, hb, hw] at h
        have hb2 : userId ∉ S.blacklist := by simpa using hb
        have hw2 : userId ∈ S.whitelist := by simpa using hw
        exact (h hb2).2 hw2

theorem ListEdit_fields (s s2 : Script) (he : ListEdit s s2) :
    s2.key = s.key ∧ s2.userId = s.userId ∧ s2.executions = s.executions ∧
      s2.code = s.code ∧ s2.isPaid = s.isPaid := by
  cases he <;> exact ⟨rfl, rfl, rfl, rfl, rfl⟩

/-- One request that neither deletes the script `id` nor draws `id` from
`uuidv4()` keeps the script stored and moves its counter by one exactly when
it is a served access to it. -/
theorem handle_executions (st : State) (now : Nat) (r : Request) (id : String) (S : Script)
    (hS : ownGet st.scripts id = some S) (hu : r.uuid ≠ some id)
    (hd : r ≠ Request.deleteScript id) :
    ∃ S2, ownGet (handle st now r).2.scripts id = some S2 ∧
      S2.executions = S.executions + (if isAllow st now r id then 1 else 0) := by
  by_cases hraw : ∃ id2 key userId, r = Request.raw id2 key userId
  · obtain ⟨id2, key, userId, rfl⟩ := hraw
    by_cases hid : id2 = id
    · subst hid
      cases hra : rawAllows st now id2 key userId with
      | true =>
        refine ⟨{ S with executions := S.executions + 1 }, ?_, ?_⟩
        · simp only [handle, getRaw_of_rawAllows st now id2 key userId S hS hra, served]
          exact ownGet_ownSet_self _ _ _
        · simp [isAllow, hra]
      | false =>
        refine ⟨S, ?_, ?_⟩
        · rcases getRaw_of_not_rawAllows st now id2 key userId S hS hra with h | h | h <;>
            simp only [handle, h] <;> exact hS
        · simp [isAllow, hra]
    · refine ⟨S, ?_, ?_⟩
      · cases hS2 : ownGet st.scripts id2 with
        | none =>
          simp only [handle, getRaw_not_stored st now id2 key userId hS2]
          exact hS
        | some s2 =>
          rcases getRaw_cases st now id2 key userId s2 hS2 with h | h | h | ⟨h, -⟩
          · simp only [handle, h]
            exact hS
          · simp only [handle, h]
            exact hS
          · simp only [handle, h]
            exact hS
          · simp only [handle, h, served]
            rw [ownGet_ownSet_ne _ _ _ _ hid]
            exact hS
      · simp [isAllow, hid]
  · have hna : isAllow st now r id = false := by
      cases r <;> first | rfl | exact absurd ⟨_, _, _, rfl⟩ hraw
    rw [hna]
    simp only [Bool.false_eq_true, if_false, Nat.add_zero]
    rcases handle_scripts_shape st now r with h | ⟨scriptId, c, p, k, hr, -, h⟩ | ⟨id2, hr, h⟩ |
      ⟨id2, lt, u, s, s2, -, hs, hedit, h⟩ | ⟨id2, key, userId, s, hr, -, -⟩
    · exact ⟨S, by rw [h]; exact hS, rfl⟩
    · have hne : scriptId ≠ id := by
        intro hc
        apply hu
        rw [hr, hc]
        rfl
      exact ⟨S, by rw [h, ownGet_ownSet_ne _ _ _ _ hne]; exact hS, rfl⟩
    · have hne : id ≠ id2 := by
        intro hc
        apply hd
        rw [hr, hc]
      exact ⟨S, by rw [h, ownGet_ownDelete_ne _ _ _ hne]; exact hS, rfl⟩
    · by_cases hid : id2 = id
      · subst hid
        rw [hS] at hs
        cases hs
        exact ⟨s2, by rw [h]; exact ownGet_ownSet_self _ _ _, (ListEdit_fields _ _ hedit).2.2.1⟩
      · exact ⟨S, by rw [h, ownGet_ownSet_ne _ _ _ _ hid]; exact hS, rfl⟩
    · exact absurd ⟨_, _, _, hr⟩ hraw

/-- C13: for a stored script, an access that is served sends the code and
raises the counter by exactly one, and an access that is not served answers
403 or one of the two kicks and leaves the stores as they were; any other
request that keeps the script (it neither deletes it nor draws its identifier
again from `uuidv4()`) leaves the counter alone; so after any such sequence of
requests the counter is its old value plus the number of served accesses, and
never less than before. -/
theorem executions_count (st : State) (id : String) (S : Script)
    (hS : ownGet st.scripts id = some S) :
    (∀ now key userId, rawAllows st now id key userId = true →
        getRaw st now id key userId = (⟨200, Body.text S.code⟩, served st id S) ∧
          ownGet (served st id S).scripts id
            = some { S with executions := S.executions + 1 }) ∧
      (∀ now key userId, rawAllows st now id key userId = false →
        (getRaw st now id key userId = (⟨403, Body.text "Unauthorized"⟩, st) ∨
          getRaw st now id key userId = (kickBlacklisted, st) ∨
          getRaw st now id key userId = (kickNotWhitelisted, st))) ∧
      (∀ now r, r.uuid ≠ some id → r ≠ Request.deleteScript id →
        ∃ S2, ownGet (handle st now r).2.scripts id = some S2 ∧
          S2.executions = S.executions + (if isAllow st now r id then 1 else 0)) ∧
      (∀ reqs : List (Nat × Request),
        (∀ tr ∈ reqs, tr.2.uuid ≠ some id ∧ tr.2 ≠ Request.deleteScript id) →
        ∃ S2, ownGet (run st reqs).2.scripts id = some S2 ∧
          S2.executions = S.executions + allowCount id st reqs ∧
          S.executions ≤ S2.executions) := by
  refine ⟨?_, ?_, ?_, ?_⟩
  · intro now key userId h
    exact ⟨getRaw_of_rawAllows st now id key userId S hS h, ownGet_ownSet_self _ _ _⟩
  · intro now key userId h
    exact getRaw_of_not_rawAllows st now id key userId S hS h
  · intro now r hu hd
    exact handle_executions st now r id S hS hu hd
  · intro reqs
    induction reqs generalizing st S with
    | nil =>
      intro _
      exact ⟨S, by simpa [run] using hS, by simp [allowCount], Nat.le_refl _⟩
    | cons tr rest ih =>
      obtain ⟨now, r⟩ := tr
      intro hall
      obtain ⟨hu, hd⟩ := hall (now, r) (List.mem_cons_self _ _)
      obtain ⟨S1, hS1, he1⟩ := handle_executions st now r id S hS hu hd
      obtain ⟨S2, hS2, he2, -⟩ := ih (handle st now r).2 S1 hS1
        (fun tr2 h2 => hall tr2 (List.mem_cons_of_mem _ h2))
      refine ⟨S2, by simpa [run] using hS2, ?_, ?_⟩
      · rw [he2, he1]
        simp only [allowCount]
        omega
      · rw [he2, he1]
        omega

/-- Witness of C13 on the scenario: the first access of alice to her fresh
script is served and its counter goes from 0 to 1. -/
theorem executions_count_witness :
    getRaw (run emptyState scenario).2 5000 "s1" (some "k1") (some "alice")
        = (⟨200, Body.text "print(1)"⟩, served (run emptyState scenario).2 "s1"
            ⟨"s1", "k1", some "alice", "print(1)", true, [], [some "bob"], 0⟩) ∧
      ownGet (served (run emptyState scenario).2 "s1"
          ⟨"s1", "k1", some "alice", "print(1)", true, [], [some "bob"], 0⟩).scripts "s1"
        = some ⟨"s1", "k1", some "alice", "print(1)", true, [], [some "bob"], 1⟩ :=
  (executions_count (run emptyState scenario).2 "s1"
    ⟨"s1", "k1", some "alice", "print(1)", true, [], [some "bob"], 0⟩ (by decide)).1
    5000 (some "k1") (some "alice") (by decide)

/-! ## Invariants stated on the reachable states -/

/-- C16: after any sequence of requests from the empty stores, neither the
whitelist nor the blacklist of a stored script holds a userId twice; and a
userId can be on both lists of one script at the same time. -/
theorem lists_no_duplicates (reqs : List (Nat × Request)) :
    (∀ e ∈ (run emptyState reqs).2.scripts, e.2.whitelist.Nodup ∧ e.2.blacklist.Nodup) ∧
      (∃ e ∈ (run emptyState
            (scenario ++ [(4000, Request.addToList "s1" "whitelist" (some "bob"))])).2.scripts,
        some "bob" ∈ e.2.whitelist ∧ some "bob" ∈ e.2.blacklist) := by
  refine ⟨reachable_lists_nodup reqs, ?_⟩
  exact ⟨("s1", ⟨"s1", "k1", some "alice", "print(1)", true, [some "bob"], [some "bob"], 0⟩),
    by decide, by decide, by decide⟩

theorem nodup_all_eq_length {β : Type} (l : List β) (b : β) (hn : l.Nodup)
    (hall : ∀ x ∈ l, x = b) : l.length ≤ 1 := by
  match l, hn, hall with
  | [], _, _ => simp
  | [_], _, _ => simp
  | x :: y :: rest, hn, hall =>
    exfalso
    have hx : x = b := hall x (List.mem_cons_self _ _)
    have hy : y = b := hall y (List.mem_cons_of_mem _ (List.mem_cons_self _ _))
    rw [List.nodup_cons] at hn
    exact hn.1 (by rw [hx, hy]; exact List.mem_cons_self _ _)

/-- C17: after any sequence of requests from the empty stores, two stored keys
with the same userId are the same entry; in particular at every instant at
most one stored key of a userId is unexpired. -/
theorem one_key_per_user (reqs : List (Nat × Request)) :
    (∀ e1 ∈ (run emptyState reqs).2.keys, ∀ e2 ∈ (run emptyState reqs).2.keys,
        e1.2.userId = e2.2.userId → e1 = e2) ∧
      (∀ (now : Nat) (U : String),
        ((run emptyState reqs).2.keys.filter
          (fun e => decide (e.2.userId = U) && decide (now ≤ e.2.expiresAt))).length ≤ 1) := by
  have hn := reachable_userIds_nodup reqs
  refine ⟨?_, ?_⟩
  · intro e1 h1 e2 h2 heq
    exact List.inj_on_of_nodup_map hn h1 h2 heq
  · intro now U
    have hsub : ((run emptyState reqs).2.keys.filter
        (fun e => decide (e.2.userId = U) && decide (now ≤ e.2.expiresAt))).map
          (fun e => e.2.userId) |>.Nodup :=
      hn.sublist ((List.filter_sublist _).map _)
    have hlen := nodup_all_eq_length _ U hsub (by
      intro x hx
      rw [List.mem_map] at hx
      obtain ⟨e, he, rfl⟩ := hx
      have := (List.mem_filter.mp he).2
      simp only [Bool.and_eq_true, decide_eq_true_eq] at this
      exact this.1)
    simpa using hlen

/-- C20: after any sequence of requests from the empty stores every stored key
has `isPaid` false, and every key check answered 200 reports the plan Free;
and a stored key is left as it is or removed by any request that does not
draw its identifier again from `uuidv4()`. -/
theorem no_paid_key (reqs : List (Nat × Request)) :
    (∀ e ∈ (run emptyState reqs).2.keys, e.2.isPaid = false) ∧
      (∀ now key, (postCheckKey (run emptyState reqs).2 now key).1.status = 200 →
        postCheckKey (run emptyState reqs).2 now key
          = (⟨200, Body.valid "Free"⟩, (run emptyState reqs).2)) ∧
      (∀ now r k kd, r.uuid ≠ some k → ownGet (run emptyState reqs).2.keys k = some kd →
        ownGet (handle (run emptyState reqs).2 now r).2.keys k = some kd ∨
          ownGet (handle (run emptyState reqs).2 now r).2.keys k = none) := by
  have hfree := reachable_keys_free reqs
  refine ⟨hfree, ?_, ?_⟩
  · intro now key hst
    have hpaid : keyIsPaid (jsGet (run emptyState reqs).2.keys (propKey key)) = false := by
      cases hj : jsGet (run emptyState reqs).2.keys (propKey key) with
      | undefined => rfl
      | inherited => rfl
      | own kd =>
        have hm := ownGet_mem _ _ _ ((jsGet_eq_own _ _ _).mp hj)
        exact hfree _ hm
    unfold postCheckKey at hst ⊢
    simp only [] at hst ⊢
    split
    · rename_i hg
      simp [hg] at hst
    · simp [hpaid]
  · intro now r k kd hu hk
    rcases handle_keys_shape (run emptyState reqs).2 now r with
      h | ⟨newKey, u, hr, -, -, h⟩ | ⟨key, -, h⟩
    · left
      rw [h]
      exact hk
    · left
      have hne : newKey ≠ k := by
        intro hc
        apply hu
        rw [hr, hc]
        rfl
      rw [h, ownGet_ownSet_ne _ _ _ _ hne]
      exact hk
    · rw [h]
      by_cases hc : k = propKey key
      · right
        rw [hc]
        exact ownGet_ownDelete_self _ _
      · left
        rw [ownGet_ownDelete_ne _ _ _ hc]
        exact hk

/-! ## Failures change nothing -/

/-- C19: every answer other than 200 of the free-key, creation, deletion and
list handlers, and every answer of the list read, leaves both stores as they
were; `GET /raw/:id` leaves them as they were unless it serves a stored
script; and the key check never touches the script store and changes at most
the entry of the key it looked up. -/
theorem failure_atomicity (st : State) (now : Nat) :
    (∀ newKey userId, (postFreeKey st now newKey userId).1.status ≠ 200 →
        (postFreeKey st now newKey userId).2 = st) ∧
      (∀ scriptId code isPaid key,
        (postScripts st now scriptId code isPaid key).1.status ≠ 200 →
        (postScripts st now scriptId code isPaid key).2 = st) ∧
      (∀ id, (deleteScript st id).1.status ≠ 200 → (deleteScript st id).2 = st) ∧
      (∀ id, (getUsers st id).2 = st) ∧
      (∀ id listType u, (postUsers st id listType u).1.status ≠ 200 →
        (postUsers st id listType u).2 = st) ∧
      (∀ id listType u, (deleteUsers st id listType u).1.status ≠ 200 →
        (deleteUsers st id listType u).2 = st) ∧
      (∀ id key userId, (getRaw st now id key userId).2 = st ∨
        ∃ S, ownGet st.scripts id = some S ∧
          getRaw st now id key userId = (⟨200, Body.text S.code⟩, served st id S)) ∧
      (∀ key, (postCheckKey st now key).2.scripts = st.scripts ∧
        ∀ k, k ≠ propKey key →
          ownGet (postCheckKey st now key).2.keys k = ownGet st.keys k) := by
  refine ⟨?_, ?_, ?_, ?_, ?_, ?_, ?_, ?_⟩
  · intro newKey userId
    simp only [postFreeKey]
    repeat' split
    all_goals simp
  · intro scriptId code isPaid key
    simp only [postScripts]
    repeat' split
    all_goals simp
  · intro id
    simp only [deleteScript]
    repeat' split
    all_goals simp
  · intro id
    simp only [getUsers]
    repeat' split
    all_goals rfl
  · intro id listType u
    simp only [postUsers]
    repeat' split
    all_goals simp
  · intro id listType u
    simp only [deleteUsers]
    repeat' split
    all_goals simp
  · intro id key userId
    cases hS : ownGet st.scripts id with
    | none => exact Or.inl (getRaw_not_stored st now id key userId hS)
    | some S =>
      rcases getRaw_cases st now id key userId S hS with h | h | h | ⟨h, -⟩
      · exact Or.inl (by rw [h])
      · exact Or.inl (by rw [h])
      · exact Or.inl (by rw [h])
      · exact Or.inr ⟨S, rfl, h⟩
  · intro key
    simp only [postCheckKey]
    split
    · exact ⟨rfl, fun k hk => ownGet_ownDelete_ne _ _ _ hk⟩
    · exact ⟨rfl, fun k _ => rfl⟩

/-! ## Ownership -/

theorem handle_ownerInv (used : List String) (st : State) (now : Nat) (r : Request)
    (hinv : OwnerInv used st)
    (hr : ∀ u, r.uuid = some u → u ∉ used ∧ u ∉ objectPrototypeNames) :
    OwnerInv (r.uuid.toList ++ used) (handle st now r).2 := by
  obtain ⟨hK, hSc⟩ := hinv
  have hkeys : ∀ x kd, (x ∈ used ∨ x ∈ objectPrototypeNames) →
      ownGet (handle st now r).2.keys x = some kd → ownGet st.keys x = some kd := by
    intro x kd hx hk
    rcases handle_keys_shape st now r with h | ⟨newKey, u, hreq, -, -, h⟩ | ⟨key, -, h⟩
    · rwa [h] at hk
    · rw [h] at hk
      rcases ownGet_ownSet_some _ _ _ _ _ hk with ⟨hxk, -⟩ | ⟨-, hk2⟩
      · exfalso
        have hf := hr newKey (by rw [hreq]; rfl)
        subst hxk
        rcases hx with hx | hx
        · exact hf.1 hx
        · exact hf.2 hx
      · exact hk2
    · rw [h] at hk
      exact ownGet_ownDelete_some _ _ _ _ hk
  have hold : ∀ s0 : Script,
      ((s0.key ∈ used ∨ (s0.key ∈ objectPrototypeNames ∧ s0.userId = none)) ∧
        (∀ kd, ownGet st.keys s0.key = some kd → s0.userId = some kd.userId)) →
      ((s0.key ∈ r.uuid.toList ++ used ∨ (s0.key ∈ objectPrototypeNames ∧ s0.userId = none)) ∧
        (∀ kd, ownGet (handle st now r).2.keys s0.key = some kd →
          s0.userId = some kd.userId)) := by
    intro s0 h0
    obtain ⟨hA, hB⟩ := h0
    refine ⟨?_, fun kd hk => hB kd (hkeys _ _ ?_ hk)⟩
    · rcases hA with hA | hA
      · exact Or.inl (List.mem_append_right _ hA)
      · exact Or.inr hA
    · rcases hA with hA | hA
      · exact Or.inl hA
      · exact Or.inr hA.1
  refine ⟨?_, ?_⟩
  · intro k kd hk
    rcases handle_keys_shape st now r with h | ⟨newKey, u, hreq, -, -, h⟩ | ⟨key, -, h⟩
    · rw [h] at hk
      exact List.mem_append_right _ (hK k kd hk)
    · rw [h] at hk
      rcases ownGet_ownSet_some _ _ _ _ _ hk with ⟨hkk, -⟩ | ⟨-, hk2⟩
      · rw [hreq, hkk]
        simp [Request.uuid]
      · exact List.mem_append_right _ (hK k kd hk2)
    · rw [h] at hk
      exact List.mem_append_right _ (hK k kd (ownGet_ownDelete_some _ _ _ _ hk))
  · intro id s hs
    rcases handle_scripts_shape st now r with h | ⟨scriptId, c, p, k, hreq, htr, h⟩ |
      ⟨id2, -, h⟩ | ⟨id2, lt, u, s0, s2, -, hs0, hedit, h⟩ | ⟨id2, key, userId, s0, -, hs0, h⟩
    · rw [h] at hs
      exact hold s (hSc id s hs)
    · rw [h] at hs
      rcases ownGet_ownSet_some _ _ _ _ _ hs with ⟨-, hnew⟩ | ⟨-, hs2⟩
      · have hkeq : (handle st now r).2.keys = st.keys := by
          rw [hreq]
          exact postScripts_keys _ _ _ _ _ _
        subst hnew
        cases hg : ownGet st.keys k with
        | some kd =>
          have hj : jsGet st.keys k = Ref.own kd := (jsGet_eq_own _ _ _).mpr hg
          refine ⟨Or.inl (List.mem_append_right _ (hK k kd hg)), ?_⟩
          intro kd2 hk2
          rw [hkeq] at hk2
          simp only [] at hk2
          rw [hg] at hk2
          cases hk2
          simp [hj, keyUserId]
        | none =>
          have hp : k ∈ objectPrototypeNames := by
            by_contra hp
            simp [jsGet, hg, hp, Ref.truthy] at htr
          have hj : jsGet st.keys k = Ref.inherited := by simp [jsGet, hg, hp]
          refine ⟨Or.inr ⟨hp, by simp [hj, keyUserId]⟩, ?_⟩
          intro kd2 hk2
          rw [hkeq] at hk2
          simp only [] at hk2
          rw [hg] at hk2
          cases hk2
      · exact hold s (hSc id s hs2)
    · rw [h] at hs
      exact hold s (hSc id s (ownGet_ownDelete_some _ _ _ _ hs))
    · rw [h] at hs
      rcases ownGet_ownSet_some _ _ _ _ _ hs with ⟨-, hnew⟩ | ⟨-, hs2⟩
      · subst hnew
        obtain ⟨hkey, huid, -⟩ := ListEdit_fields _ _ hedit
        have h0 := hold s0 (hSc id2 s0 hs0)
        rw [hkey, huid]
        exact h0
      · exact hold s (hSc id s hs2)
    · have hsc : (handle st now r).2.scripts
          = ownSet st.scripts id2 { s0 with executions := s0.executions + 1 } := by
        rw [h]
        rfl
      rw [hsc] at hs
      rcases ownGet_ownSet_some _ _ _ _ _ hs with ⟨-, hnew⟩ | ⟨-, hs2⟩
      · subst hnew
        exact hold s0 (hSc id2 s0 hs0)
      · exact hold s (hSc id s hs2)

theorem run_ownerInv (reqs : List (Nat × Request)) :
    ∀ (used : List String) (st : State), OwnerInv used st →
      (∀ x ∈ used, x ∉ objectPrototypeNames) → (uuidsOf reqs).Nodup →
      (∀ u ∈ uuidsOf reqs, u ∉ used ∧ u ∉ objectPrototypeNames) →
      ∃ used2, OwnerInv used2 (run st reqs).2 ∧ ∀ x ∈ used2, x ∉ objectPrototypeNames := by
  induction reqs with
  | nil =>
    intro used st hinv hused _ _
    exact ⟨used, by simpa [run] using hinv, hused⟩
  | cons tr rest ih =>
    obtain ⟨now, r⟩ := tr
    intro used st hinv hused hnd hfresh
    cases hu : r.uuid with
    | none =>
      have hcons : uuidsOf ((now, r) :: rest) = uuidsOf rest := by
        simp [uuidsOf, List.filterMap_cons, hu]
      rw [hcons] at hnd hfresh
      have hstep := handle_ownerInv used st now r hinv (by
        intro u hru
        rw [hu] at hru
        cases hru)
      rw [hu] at hstep
      simp only [run]
      exact ih used _ (by simpa using hstep) hused hnd hfresh
    | some v =>
      have hcons : uuidsOf ((now, r) :: rest) = v :: uuidsOf rest := by
        simp [uuidsOf, List.filterMap_cons, hu]
      rw [hcons] at hnd hfresh
      rw [List.nodup_cons] at hnd
      have hv := hfresh v (List.mem_cons_self _ _)
      have hstep := handle_ownerInv used st now r hinv (by
        intro u hru
        rw [hu] at hru
        cases hru
        exact hv)
      rw [hu] at hstep
      simp only [run]
      refine ih (v :: used) _ (by simpa using hstep) ?_ hnd.2 ?_
      · intro x hx
        rcases List.mem_cons.mp hx with hx | hx
        · rw [hx]
          exact hv.2
        · exact hused x hx
      · intro u hmem
        have hf := hfresh u (List.mem_cons_of_mem _ hmem)
        refine ⟨?_, hf.2⟩
        intro hc
        rcases List.mem_cons.mp hc with hc | hc
        · rw [hc] at hmem
          exact hnd.1 hmem
        · exact hf.1 hc

/-- A served access is made by the userId recorded on the script, in every
state in which the scripts and the keys are linked. -/
theorem served_to_owner (used : List String) (st : State) (hinv : OwnerInv used st)
    (hused : ∀ x ∈ used, x ∉ objectPrototypeNames) (now : Nat) (id : String)
    (key userId : Option String) (S : Script) (hS : ownGet st.scripts id = some S)
    (h : getRaw st now id key userId = (⟨200, Body.text S.code⟩, served st id S)) :
    userId = S.userId := by
  have hne := served_ne st id S hS
  rcases getRaw_cases st now id key userId S hS with h1 | h1 | h1 | ⟨-, -, htr, hu, -, -⟩
  · rw [h1] at h
    exact absurd (congrArg Prod.snd h).symm hne
  · rw [h1] at h
    exact absurd (congrArg Prod.snd h).symm hne
  · rw [h1] at h
    exact absurd (congrArg Prod.snd h).symm hne
  · obtain ⟨hA, hB⟩ := hinv.2 id S hS
    cases hg : ownGet st.keys S.key with
    | some kd =>
      have hj : jsGet st.keys S.key = Ref.own kd := (jsGet_eq_own _ _ _).mpr hg
      rw [hj] at hu
      rw [hB kd hg, ← hu]
      rfl
    | none =>
      have hp : S.key ∈ objectPrototypeNames := by
        by_contra hp
        simp [jsGet, hg, hp, Ref.truthy] at htr
      have hj : jsGet st.keys S.key = Ref.inherited := by simp [jsGet, hg, hp]
      rw [hj] at hu
      rcases hA with hA | hA
      · exact absurd hp (hused _ hA)
      · rw [hA.2, ← hu]
        rfl

/-- C18: after any sequence of requests from the empty stores in which
`uuidv4()` never repeats an identifier (and returns no property name of
`Object.prototype`), a served access to a stored script is made by the userId
recorded on the script; hence a paid script whose non-empty whitelist omits
that userId is served to nobody. -/
theorem only_owner_served (reqs : List (Nat × Request)) (hfresh : FreshUuids reqs)
    (now : Nat) (id : String) (key userId : Option String) (S : Script)
    (hS : ownGet (run emptyState reqs).2.scripts id = some S) :
    (getRaw (run emptyState reqs).2 now id key userId
        = (⟨200, Body.text S.code⟩, served (run emptyState reqs).2 id S) →
      userId = S.userId) ∧
      (S.isPaid = true → S.whitelist ≠ [] → S.userId ∉ S.whitelist →
        getRaw (run emptyState reqs).2 now id key userId
          ≠ (⟨200, Body.text S.code⟩, served (run emptyState reqs).2 id S)) := by
  obtain ⟨used, hinv, hused⟩ := run_ownerInv reqs [] emptyState
    ⟨(by intro k kd hk; simp [emptyState, ownGet] at hk),
      (by intro i s hs; simp [emptyState, ownGet] at hs)⟩
    (by intro x hx; cases hx) hfresh.1
    (by intro u hu; exact ⟨(by intro hc; cases hc), hfresh.2 u hu⟩)
  have howner : getRaw (run emptyState reqs).2 now id key userId
      = (⟨200, Body.text S.code⟩, served (run emptyState reqs).2 id S) →
      userId = S.userId :=
    served_to_owner used _ hinv hused now id key userId S hS
  refine ⟨howner, ?_⟩
  intro hpaid hwl hnot h
  have hu := howner h
  have hne := served_ne (run emptyState reqs).2 id S hS
  rcases getRaw_cases (run emptyState reqs).2 now id key userId S hS with
    h1 | h1 | h1 | ⟨-, -, -, -, -, hl⟩
  · rw [h1] at h
    exact hne (congrArg Prod.snd h).symm
  · rw [h1] at h
    exact hne (congrArg Prod.snd h).symm
  · rw [h1] at h
    exact hne (congrArg Prod.snd h).symm
  · rcases (hl hpaid).2 with hw | hw
    · exact hwl hw
    · apply hnot
      rw [← hu]
      simpa using hw

/-- Witness of C18: in the scenario continued by putting bob, and not alice, on
the whitelist of the paid script of alice, alice herself is not served. -/
theorem only_owner_served_witness :
    getRaw (run emptyState
          (scenario ++ [(4000, Request.addToList "s1" "whitelist" (some "bob"))])).2
        5000 "s1" (some "k1") (some "alice")
      ≠ (⟨200, Body.text "print(1)"⟩,
          served (run emptyState
              (scenario ++ [(4000, Request.addToList "s1" "whitelist" (some "bob"))])).2 "s1"
            ⟨"s1", "k1", some "alice", "print(1)", true, [some "bob"], [some "bob"], 0⟩) :=
  (only_owner_served (scenario ++ [(4000, Request.addToList "s1" "whitelist" (some "bob"))])
    ⟨by decide, by decide⟩ 5000 "s1" (some "k1") (some "alice")
    ⟨"s1", "k1", some "alice", "print(1)", true, [some "bob"], [some "bob"], 0⟩
    (by decide)).2 rfl (by decide) (by decide)

end Server
